import Mathlib

/-!
# Verification of the secret-key lifecycle engine

A shallow embedding of the cryptography / key-rotation core of the
`ohrm-ui-automation-framework` repository, together with theorems settling
the frozen claims about it.

JavaScript strings are modelled as lists of characters (`Str`), millisecond
timestamps (`Date.getTime()`) as `Int`, and the persisted JSON documents as
plain Lean structures.  Asynchronous file-backed operations become pure
state transformers on an explicit store state; thrown exceptions become
`Except` results.  Definitions whose doc comment starts with
`Modelled from the spec:` stand for code of the repository that is not part
of the provided sources (the crypto leaf operations, the base64 and text
codecs, the secure key generator, the crypto format constants, and the
environment/secret file collaborators); they follow the specification's
description of those components.  Everything else is translated directly
from the sources (file and symbol named in each doc comment).
-/

deriving instance DecidableEq for Except

namespace OhrmCrypto

/-- JavaScript strings are modelled as lists of characters. -/
abbrev Str := List Char

/-- Millisecond timestamps are modelled as integers. -/
abbrev Time := Int

/-- Milliseconds in one day (`1000 * 60 * 60 * 24` in `keyExpirationCalculator.ts`). -/
def dayMs : Int := 1000 * 60 * 60 * 24

/-! ## Base64 transport encoding

Modelled from the spec: the repository encodes salt, IV, ciphertext and HMAC
with Node's base64 codec (`Buffer.toString("base64")`), which is not part of
the sources.  The model encodes each code unit as a fixed group of four
characters of the base64 alphabet, so outputs always have length a multiple
of four, use only alphabet characters and carry no padding; a decoder
inverts the encoding. -/

/-- The character for one base64 digit (0‥63), alphabet `A-Za-z0-9+/`. -/
def digitChar (n : Nat) : Char :=
  if n < 26 then Char.ofNat (65 + n)
  else if n < 52 then Char.ofNat (97 + (n - 26))
  else if n < 62 then Char.ofNat (48 + (n - 52))
  else if n = 62 then '+'
  else '/'

/-- Numeric value of a base64 digit character (inverse of `digitChar`). -/
def digitVal (c : Char) : Nat :=
  if 65 ≤ c.toNat ∧ c.toNat ≤ 90 then c.toNat - 65
  else if 97 ≤ c.toNat ∧ c.toNat ≤ 122 then 26 + (c.toNat - 97)
  else if 48 ≤ c.toNat ∧ c.toNat ≤ 57 then 52 + (c.toNat - 48)
  else if c = '+' then 62
  else 63

/-- Membership in the character class `[A-Za-z0-9+/]` of the detector's
regular expression (`cryptoEnvironment.ts`, `isValidBase64`). -/
def isB64Char (c : Char) : Bool :=
  c.isUpper || c.isLower || c.isDigit || c = '+' || c = '/'

/-- `64^4`, the number of values representable by one four-digit group. -/
def quadRange : Nat := 16777216

/-- Four base64 digits encoding `n % quadRange`, most significant first. -/
def natToB64Quad (n : Nat) : Str :=
  [digitChar (n / (64 * 64 * 64) % 64), digitChar (n / (64 * 64) % 64),
   digitChar (n / 64 % 64), digitChar (n % 64)]

/-- Numeric value of four base64 digit characters. -/
def quadVal (a b c d : Char) : Nat :=
  ((digitVal a * 64 + digitVal b) * 64 + digitVal c) * 64 + digitVal d

/-- Base64 encoding of a list of code units, four digits per unit. -/
def encodeCodes : List Nat → Str
  | [] => []
  | n :: rest => natToB64Quad n ++ encodeCodes rest

/-- Base64 decoding, inverse of `encodeCodes`. -/
def decodeCodes : Str → Option (List Nat)
  | [] => some []
  | a :: b :: c :: d :: rest =>
    match decodeCodes rest with
    | some ns => some (quadVal a b c d :: ns)
    | none => none
  | _ => none

/-! ## JavaScript string helpers -/

/-- `String.prototype.split(sep)` for a one-character separator. -/
def splitOnSep (sep : Char) : Str → List Str
  | [] => [[]]
  | c :: rest =>
    let r := splitOnSep sep rest
    if c = sep then [] :: r
    else
      match r with
      | h :: t => (c :: h) :: t
      | [] => [[c]]

/-- `String.prototype.trim()`. -/
def trimStr (cs : Str) : Str :=
  ((cs.dropWhile Char.isWhitespace).reverse.dropWhile Char.isWhitespace).reverse

/-! ## Envelope format constants

Modelled from the spec: `CRYPTO_CONSTANTS.FORMAT` of `crypto.config.ts` is
not part of the sources.  The concrete values follow the envelope comment in
`EncryptionUtils.isAlreadyEncrypted` ("e.g. \"ENC2:v1:\"") and the comment
"Now expect version + 4 parts = 5" in `CryptoValidation.isEncrypted`. -/

/-- The fixed envelope marker `PREFIX`. -/
def envMarker : Str := ['E', 'N', 'C', '2', ':']

/-- The current format `VERSION`. -/
def versionStr : Str := ['v', '1']

/-- The fixed `SEPARATOR`. -/
def sepChar : Char := ':'

/-- `EXPECTED_PARTS`: segments after the version. -/
def expectedParts : Nat := 4

/-! ## Envelope detector (translated from `cryptoEnvironment.ts`, `CryptoValidation`) -/

/-- Shape test of the regular expression `^[A-Za-z0-9+/]*={0,2}$`: at most
two trailing `=` characters, everything before them in the alphabet. -/
def base64Shape (cs : Str) : Bool :=
  let eqs := (cs.reverse.takeWhile (fun c => c = '=')).length
  decide (eqs ≤ 2) && (cs.take (cs.length - eqs)).all isB64Char

/-- `CryptoValidation.isValidBase64` (`cryptoEnvironment.ts` lines 57-74).
`Buffer.from(value, "base64")` never throws, so the `try` always returns
`true` once the regular expression and length checks pass. -/
def isValidBase64 (cs : Str) : Bool :=
  if cs.isEmpty then false
  else base64Shape cs && cs.length % 4 == 0

/-- `CryptoValidation.isEncrypted` (`cryptoEnvironment.ts` lines 36-55).
`value.replace(PREFIX, "")` removes the first occurrence of the prefix;
under the preceding `startsWith` guard this is exactly dropping the
prefix. -/
def isEncrypted (v : Str) : Bool :=
  if v.isEmpty then false
  else if !(envMarker.isPrefixOf v) then false
  else
    let parts := splitOnSep sepChar (v.drop envMarker.length)
    if parts.length ≠ expectedParts + 1 then false
    else
      match parts with
      | [] => false
      | version :: cryptoParts =>
        decide (version = versionStr) && cryptoParts.all isValidBase64

/-- The detector as worded by the specification ("returns true iff the value
begins with the fixed prefix, splits into exactly `EXPECTED_PARTS+1`
segments on the fixed separator, the first segment equals the current format
version, and every remaining segment is valid base64"), for comparison with
the implementation. -/
def isEncryptedSpec (v : Str) : Bool :=
  envMarker.isPrefixOf v &&
  (let parts := splitOnSep sepChar (v.drop envMarker.length)
   decide (parts.length = expectedParts + 1) &&
   decide (parts.head? = some versionStr) &&
   parts.tail.all isValidBase64)

/-! ## Crypto engine leaves

Modelled from the spec: `CryptoArgon2`, `CryptoHmac`, `CryptoWebOperations`,
`CryptoDecryption` and `SecureKeyGenerator` are not part of the sources.
The model keeps their contracts: key derivation is a deterministic function
of `(secretKey, salt)` producing an encryption subkey and an authentication
subkey; the cipher is a symmetric, IV-dependent, invertible transformation;
the tag is a deterministic function of the authentication key and the
transport-encoded data; salt/IV generation is parameterised by an explicit
entropy argument (fresh randomness in the real code). -/

/-- Derived encryption subkey (retains its derivation inputs). -/
structure EncKey where
  secret : Str
  salt : Str
deriving DecidableEq

/-- Derived authentication subkey (retains its derivation inputs). -/
structure HmacKey where
  secret : Str
  salt : Str
deriving DecidableEq

/-- Sum of the code units of a string (mixing helper of the model). -/
def sumCodes (cs : Str) : Nat := (cs.map Char.toNat).sum

/-- Modelled from the spec: `CryptoArgon2.deriveKeysWithArgon2` — one
deterministic derivation of `(secretKey, salt)` into the two subkeys. -/
def deriveKeysWithArgon2 (secretKey salt : Str) : EncKey × HmacKey :=
  (⟨secretKey, salt⟩, ⟨secretKey, salt⟩)

/-- Key stream unit of the model cipher, a function of key and IV. -/
def keyStreamByte (ek : EncKey) (iv : List Nat) : Nat :=
  (sumCodes ek.secret + sumCodes ek.salt + iv.sum) % 256

/-- Modelled from the spec: `CryptoWebOperations.encryptBuffer` — symmetric
encryption of the text under the derived key and IV, producing code units. -/
def encryptBuffer (iv : List Nat) (ek : EncKey) (value : Str) : List Nat :=
  value.map (fun c => c.toNat + keyStreamByte ek iv)

/-- Modelled from the spec: `CryptoHmac.prepareHMACData` — the tag covers
the concatenation of salt, IV and ciphertext in their transport encoding. -/
def prepareHMACData (salt ivB64 cipherText : Str) : Str :=
  salt ++ ivB64 ++ cipherText

/-- Modelled from the spec: `CryptoWebOperations.computeHMAC` — a
deterministic base64-encoded tag over the prepared data. -/
def computeHMAC (hk : HmacKey) (data : Str) : Str :=
  natToB64Quad ((sumCodes hk.secret + 2 * sumCodes hk.salt + 3 * sumCodes data) % quadRange)

/-- Modelled from the spec: `SecureKeyGenerator.generateBase64Salt`. -/
def generateBase64Salt (ent : Nat) : Str := natToB64Quad (ent % quadRange)

/-- Modelled from the spec: `SecureKeyGenerator.generateWebCryptoIV`. -/
def generateWebCryptoIV (ent : Nat) : List Nat := [ent % quadRange]

/-- Modelled from the spec: `SecureKeyGenerator.generateBase64SecretKey` —
a base64 key of fixed target length (16 characters here). -/
def generateBase64SecretKey (ent : Nat) : Str :=
  natToB64Quad (ent % quadRange) ++ natToB64Quad (ent / quadRange % quadRange) ++
  natToB64Quad (ent / quadRange / quadRange % quadRange) ++
  natToB64Quad (ent / quadRange / quadRange / quadRange % quadRange)

/-- Modelled from the spec: `SecretKeyOperations.hashKey` truncates a
SHA-256 digest of the key; the model keeps a deterministic digest. -/
def hashKey (k : Str) : Str := natToB64Quad (sumCodes k % quadRange)

/-- Error taxonomy of the crypto engine (§7 of the specification). -/
inductive CryptoError
  | validationError
  | formatError
  | integrityError
  | decryptionError
deriving DecidableEq

/-- `CryptoValidation.validateSecretKey` (`cryptoEnvironment.ts` lines
92-106): non-empty and at least 16 characters. -/
def validateSecretKey (secretKey : Str) : Except CryptoError Unit :=
  if secretKey.isEmpty then .error .validationError
  else if secretKey.length < 16 then .error .validationError
  else .ok ()

/-- `CryptoValidation.validateInputs` (`cryptoEnvironment.ts` lines
108-121): value and secret key non-empty. -/
def validateInputs (value secretKey : Str) : Except CryptoError Unit :=
  if value.isEmpty then .error .validationError
  else if secretKey.isEmpty then .error .validationError
  else .ok ()

/-- `CryptoEncryption.formatEncryptedPayload` (`cryptoEncryption.ts`):
`PREFIX VERSION SEP salt SEP iv SEP cipherText SEP hmac`. -/
def formatEncryptedPayload (salt iv cipherText hmac : Str) : Str :=
  envMarker ++ versionStr ++ sepChar :: salt ++ sepChar :: iv ++
    sepChar :: cipherText ++ sepChar :: hmac

/-- `CryptoEncryption.createEncryptedPayload` (`cryptoEncryption.ts`):
encrypt, transport-encode, tag, format. -/
def createEncryptedPayload (value salt : Str) (iv : List Nat)
    (ek : EncKey) (hk : HmacKey) : Str :=
  let encryptedBuffer := encryptBuffer iv ek value
  let cipherText := encodeCodes encryptedBuffer
  let ivBase64 := encodeCodes iv
  let dataToHmac := prepareHMACData salt ivBase64 cipherText
  let hmacB64 := computeHMAC hk dataToHmac
  formatEncryptedPayload salt ivBase64 cipherText hmacB64

/-- `CryptoEncryption.generateEncryptionComponents` (`cryptoEncryption.ts`):
fresh salt and IV (entropy made explicit), then key derivation. -/
def generateEncryptionComponents (secretKey : Str) (ent1 ent2 : Nat) :
    Str × List Nat × EncKey × HmacKey :=
  let salt := generateBase64Salt ent1
  let iv := generateWebCryptoIV ent2
  let kp := deriveKeysWithArgon2 secretKey salt
  (salt, iv, kp.1, kp.2)

/-- The four transport-encoded envelope components. -/
structure ParsedEnvelope where
  salt : Str
  iv : Str
  cipherText : Str
  receivedHmac : Str
deriving DecidableEq

/-- Modelled from the spec: `CryptoDecryption.parseEncryptedData` — the
inverse of `formatEncryptedPayload`, failing with a format error on
envelopes the detector rejects (§4.1). -/
def parseEncryptedData (s : Str) : Except CryptoError ParsedEnvelope :=
  if isEncrypted s then
    match splitOnSep sepChar (s.drop envMarker.length) with
    | [_, salt, iv, ct, hmac] => .ok ⟨salt, iv, ct, hmac⟩
    | _ => .error .formatError
  else .error .formatError

/-- `CryptoHmac.verifyHMACIntegrity`: recompute the tag over the transport
data and compare; integrity error on mismatch (reject-before-decrypt). -/
def verifyHMACIntegrity (salt ivB64 cipherText receivedHmac : Str)
    (hk : HmacKey) : Except CryptoError Unit :=
  if receivedHmac = computeHMAC hk (prepareHMACData salt ivB64 cipherText) then .ok ()
  else .error .integrityError

/-- Modelled from the spec: `CryptoDecryption.performDecryption` — decode
the transport encoding and invert the cipher. -/
def performDecryption (ivB64 : Str) (ek : EncKey) (cipherText : Str) :
    Except CryptoError (List Nat) :=
  match decodeCodes ivB64 with
  | none => .error .decryptionError
  | some iv =>
    match decodeCodes cipherText with
    | none => .error .decryptionError
    | some codes => .ok (codes.map (fun n => n - keyStreamByte ek iv))

/-- Modelled from the spec: `TextDecoder.decode` — code units to text. -/
def textDecode (codes : List Nat) : Str := codes.map Char.ofNat

/-- `CryptoOperations.encryptWithKey` (`part_004` lines 144-165): validate,
generate components, create the envelope. -/
def encryptWithKey (value secretKey : Str) (ent1 ent2 : Nat) : Except CryptoError Str :=
  match validateSecretKey secretKey with
  | .error e => .error e
  | .ok () =>
    match validateInputs value secretKey with
    | .error e => .error e
    | .ok () =>
      let comps := generateEncryptionComponents secretKey ent1 ent2
      .ok (createEncryptedPayload value comps.1 comps.2.1 comps.2.2.1 comps.2.2.2)

/-- `CryptoOperations.decryptWithKey` (`part_004` lines 170-201): validate,
parse, re-derive keys from the embedded salt, verify the tag, decrypt,
decode to text. -/
def decryptWithKey (encryptedData secretKey : Str) : Except CryptoError Str :=
  match validateSecretKey secretKey with
  | .error e => .error e
  | .ok () =>
    match validateInputs encryptedData secretKey with
    | .error e => .error e
    | .ok () =>
      match parseEncryptedData encryptedData with
      | .error e => .error e
      | .ok p =>
        let kp := deriveKeysWithArgon2 secretKey p.salt
        match verifyHMACIntegrity p.salt p.iv p.cipherText p.receivedHmac kp.2 with
        | .error e => .error e
        | .ok () =>
          match performDecryption p.iv kp.1 p.cipherText with
          | .error e => .error e
          | .ok buf => .ok (textDecode buf)

/-! ## Key expiration policy (translated from `keyExpirationCalculator.ts`) -/

/-- The three-state classification of `determineKeyStatus`. -/
inductive KeyStatus
  | active
  | expired
  | expiringSoon
deriving DecidableEq

/-- `KeyExpirationCalculator.EXPIRING_SOON_THRESHOLD_DAYS`. -/
def expiringSoonThresholdDays : Int := 7

/-- `KeyExpirationCalculator.calculateExpirationDate`: the current time plus
`rotationDays` whole UTC days (`setUTCDate` is exact millisecond
arithmetic, UTC has no offset changes). -/
def calculateExpirationDate (rotationDays : Int) (now : Time) : Time :=
  now + rotationDays * dayMs

/-- `KeyExpirationCalculator.calculateDaysUntilExpiration`:
`Math.floor(diffMs / dayMs)`.  Euclidean division by the positive constant
`dayMs` is exactly floor division. -/
def calculateDaysUntilExpiration (expiresAt : Time) (now : Time) : Int :=
  (expiresAt - now) / dayMs

/-- `KeyExpirationCalculator.determineKeyStatus` with explicit threshold. -/
def determineKeyStatus (expiresAt : Time) (now : Time) (thresholdDays : Int) : KeyStatus :=
  let daysUntilExpiration := calculateDaysUntilExpiration expiresAt now
  if daysUntilExpiration < 0 then .expired
  else if daysUntilExpiration ≤ thresholdDays then .expiringSoon
  else .active

/-- `determineKeyStatus` at its default threshold argument. -/
def determineKeyStatusDefault (expiresAt : Time) (now : Time) : KeyStatus :=
  determineKeyStatus expiresAt now expiringSoonThresholdDays

/-! ## Assoc-list stores -/

/-- First-match association lookup (JS object property access on the parsed
JSON documents, and `SecretFileManager.getKeyValue` on the key file). -/
def lookupStr {α : Type} : List (Str × α) → Str → Option α
  | [], _ => none
  | (k, v) :: rest, key => if k = key then some v else lookupStr rest key

/-- Overwrite-or-append update (JS object property assignment, and
`storeKeyInFile` with `skipIfExists: false`). -/
def insertStr {α : Type} (l : List (Str × α)) (key : Str) (v : α) : List (Str × α) :=
  if (lookupStr l key).isSome then
    l.map (fun p => if p.1 = key then (key, v) else p)
  else l ++ [(key, v)]

/-! ## Metadata store (translated from `part_006`, `SecretKeyMetadataManager`) -/

/-- `SecretKeyMetadata` (`metadata.types.ts`), dates as timestamps. -/
structure SecretKeyMetadata where
  keyName : Str
  environment : Str
  createdAt : Time
  expiresAt : Time
  rotationDays : Int
  lastRotatedAt : Option Time
  rotationCount : Nat
  status : KeyStatus
  performedBy : Str
deriving DecidableEq

/-- `KeyMetadataFile` (`metadata.types.ts`). -/
structure KeyMetadataFile where
  keys : List (Str × SecretKeyMetadata)
  lastUpdated : Time
deriving DecidableEq

/-- Options of `trackSecretKey` after defaulting (`part_006` lines 25-31). -/
structure TrackOptions where
  rotationDays : Int
  isRotation : Bool
  performedBy : Str
deriving DecidableEq

/-- `SecretKeyMetadataManager.trackSecretKey` (`part_006` lines 13-77),
restricted to its effect on the metadata document: `rotationCount` is
`existing.rotationCount + 1` when `isRotation` and the key already has
metadata, and `0` otherwise; `createdAt` is preserved only in the same
case; expiry is recomputed from `rotationDays`. -/
def trackSecretKey (mf : KeyMetadataFile) (keyName environment : Str)
    (opts : TrackOptions) (now : Time) : KeyMetadataFile :=
  let expiresAt := calculateExpirationDate opts.rotationDays now
  let existing := lookupStr mf.keys keyName
  let rotationCount :=
    match existing with
    | some m => if opts.isRotation then m.rotationCount + 1 else 0
    | none => 0
  let createdAt :=
    match existing with
    | some m => if opts.isRotation then m.createdAt else now
    | none => now
  let metadata : SecretKeyMetadata :=
    { keyName := keyName, environment := environment, createdAt := createdAt,
      expiresAt := expiresAt, rotationDays := opts.rotationDays,
      lastRotatedAt := if opts.isRotation then some now else none,
      rotationCount := rotationCount, status := .active,
      performedBy := opts.performedBy }
  { keys := insertStr mf.keys keyName metadata, lastUpdated := now }

/-- `SecretKeyMetadataManager.getKeyMetadata` (`part_006` lines 82-100):
lookup with the status re-derived on read. -/
def getKeyMetadata (mf : KeyMetadataFile) (keyName : Str) (now : Time) :
    Option SecretKeyMetadata :=
  match lookupStr mf.keys keyName with
  | none => none
  | some m => some { m with status := determineKeyStatusDefault m.expiresAt now }

/-- Rendering of `KeyStatus` to the status strings of the metadata types. -/
def statusToStr : KeyStatus → Str
  | .active => "active".data
  | .expired => "expired".data
  | .expiringSoon => "expiring_soon".data

/-- The out-of-enum status `"unknown"` returned for untracked keys. -/
def unknownStatus : Str := "unknown".data

/-- Result shape of `checkKeyRotationStatus`. -/
structure RotationStatusCheck where
  needsRotation : Bool
  daysUntilExpiration : Int
  status : Str
deriving DecidableEq

/-- `SecretKeyMetadataManager.checkKeyRotationStatus` (`part_006` lines
105-141): untracked keys yield `{true, 0, "unknown"}`; tracked keys need
rotation iff `daysUntilExpiration <= 0`. -/
def checkKeyRotationStatus (mf : KeyMetadataFile) (keyName : Str) (now : Time) :
    RotationStatusCheck :=
  match getKeyMetadata mf keyName now with
  | none => { needsRotation := true, daysUntilExpiration := 0, status := unknownStatus }
  | some m =>
    let d := calculateDaysUntilExpiration m.expiresAt now
    { needsRotation := decide (d ≤ 0), daysUntilExpiration := d,
      status := statusToStr m.status }

/-- `SecretKeyMetadataManager.getKeysNeedingRotation` (`part_006` lines
146-174): every entry with `daysUntilExpiration <= 0`, its status
overwritten to `expired`. -/
def getKeysNeedingRotation (mf : KeyMetadataFile) (now : Time) :
    List SecretKeyMetadata :=
  mf.keys.filterMap (fun p =>
    if calculateDaysUntilExpiration p.2.expiresAt now ≤ 0 then
      some { p.2 with status := .expired }
    else none)

/-! ## Audit store (translated from `secretAuditManager.ts`) -/

/-- `AuditLogEntry` (`audit.types.ts`), action/status kept as strings. -/
structure AuditLogEntry where
  timestamp : Time
  action : Str
  keyName : Str
  environment : Str
  status : Str
  details : Str
  performedBy : Str
deriving DecidableEq

/-- An audit entry before the timestamp is stamped
(`Omit<AuditLogEntry, "timestamp">`). -/
structure AuditPayload where
  action : Str
  keyName : Str
  environment : Str
  status : Str
  details : Str
  performedBy : Str
deriving DecidableEq

/-- `AuditLogFile` (`audit.types.ts`). -/
structure AuditLogFile where
  logs : List AuditLogEntry
  totalEntries : Nat
  lastAudit : Time
deriving DecidableEq

/-- `CryptoConstants.MAX_AUDIT_ENTRIES`. -/
def maxAuditEntries : Nat := 10000

/-- Timestamp stamping of `logAudit` (`{ timestamp: now, ...entry }`). -/
def stampEntry (p : AuditPayload) (now : Time) : AuditLogEntry :=
  { timestamp := now, action := p.action, keyName := p.keyName,
    environment := p.environment, status := p.status, details := p.details,
    performedBy := p.performedBy }

/-- `SecretAuditManager.logAudit` (`secretAuditManager.ts` lines 14-38):
stamp, insert at the head, truncate to the most recent 10000 entries. -/
def logAudit (p : AuditPayload) (now : Time) (f : AuditLogFile) : AuditLogFile :=
  let logs1 := stampEntry p now :: f.logs
  let logs2 := if logs1.length > maxAuditEntries then logs1.take maxAuditEntries else logs1
  { logs := logs2, totalEntries := f.totalEntries + 1, lastAudit := now }

/-- Repeated `logAudit` calls, oldest payload first. -/
def logMany (ps : List AuditPayload) (now : Time) (f : AuditLogFile) : AuditLogFile :=
  ps.foldl (fun acc p => logAudit p now acc) f

/-- The default audit document of `loadAuditLog`. -/
def emptyAuditFile : AuditLogFile :=
  { logs := [], totalEntries := 0, lastAudit := 0 }

/-! ## Rotation history store (translated from `rotationHistoryManager.ts`) -/

/-- `SecretKeyRotationEntry` (`rotation.types.ts`). -/
structure SecretKeyRotationEntry where
  keyName : Str
  environment : Str
  rotationDate : Time
  previousKeyHash : Option Str
  newKeyHash : Option Str
  rotationReason : Str
  performedBy : Str
  success : Bool
deriving DecidableEq

/-- `SecretKeyRotationFile` (`rotation.types.ts`). -/
structure SecretKeyRotationFile where
  rotations : List SecretKeyRotationEntry
  lastRotation : Time
deriving DecidableEq

/-- `RotationHistoryManager.recordRotation` (`rotationHistoryManager.ts`
lines 61-111): unshift a new entry. -/
def recordRotation (rf : SecretKeyRotationFile) (keyName environment : Str)
    (reason : Str) (prevHash newHash : Option Str) (performedBy : Str)
    (success : Bool) (now : Time) : SecretKeyRotationFile :=
  { rotations :=
      { keyName := keyName, environment := environment, rotationDate := now,
        previousKeyHash := prevHash, newKeyHash := newHash,
        rotationReason := reason, performedBy := performedBy,
        success := success } :: rf.rotations,
    lastRotation := now }

/-! ## Engine state and rotation workflow -/

/-- The persisted stores the rotation workflow touches.  `secretFile` and
`envFile` stand for the external key store and variable store of §6
(modelled from the spec: `SecretFileManager` and `StagesFileManager` are not
part of the sources; both are key=value documents). -/
structure EngineState where
  secretFile : List (Str × Str)
  envFile : List (Str × Str)
  metadataFile : KeyMetadataFile
  rotationFile : SecretKeyRotationFile
  auditFile : AuditLogFile
deriving DecidableEq

/-- `DecryptedVariable` (`decryptedVariable.types.ts`). -/
structure DecryptedVariable where
  key : Str
  originalValue : Str
  decryptedValue : Str
  wasEncrypted : Bool
deriving DecidableEq

/-- The fail-fast error of `decryptAllEnvironmentVariables`:
`Failed to decrypt variable "<key>". Cannot proceed with rotation.` -/
def decryptFailMsg (k : Str) : Str :=
  "Failed to decrypt variable \"".data ++ k ++ "\". Cannot proceed with rotation.".data

/-- The aggregate error of `decryptAllEnvironmentVariables` (unreachable:
the loop throws at the first failure, so `failedVars` is empty whenever the
loop completes). -/
def decryptAggregateMsg (ks : List Str) : Str :=
  "Failed to decrypt variable(s): ".data ++ List.intercalate ", ".data ks

/-- Loop of `CryptoOperations.decryptAllEnvironmentVariables` (`part_004`
lines 29-71), with the source's `decryptedVariables` and `failedVars`
accumulators; a decryption failure throws immediately inside the loop. -/
def decryptAllGo (oldKey : Str) :
    List (Str × Str) → List DecryptedVariable → List Str →
    Except Str (List DecryptedVariable)
  | [], acc, failed =>
    if failed.isEmpty then .ok acc.reverse
    else .error (decryptAggregateMsg failed.reverse)
  | (k, v) :: rest, acc, failed =>
    let t := trimStr v
    if t.isEmpty || !(isEncrypted t) then
      decryptAllGo oldKey rest
        ({ key := k, originalValue := v, decryptedValue := v, wasEncrypted := false } :: acc)
        failed
    else
      match decryptWithKey t oldKey with
      | .ok d =>
        decryptAllGo oldKey rest
          ({ key := k, originalValue := v, decryptedValue := d, wasEncrypted := true } :: acc)
          failed
      | .error _ => .error (decryptFailMsg k)

/-- `CryptoOperations.decryptAllEnvironmentVariables` (`part_004` lines
14-82) on the extracted variable map. -/
def decryptAllEnvironmentVariables (envFile : List (Str × Str)) (oldKey : Str) :
    Except Str (List DecryptedVariable) :=
  decryptAllGo oldKey envFile [] []

/-- Loop of `reEncryptAllVariables`: per-variable encryption with collected
failures; `i` numbers the variable for entropy derivation. -/
def reEncryptLoop (newKey : Str) (seed : Nat) :
    List DecryptedVariable → Nat → List (Str × Str) × List Str
  | [], _ => ([], [])
  | v :: rest, i =>
    let r := reEncryptLoop newKey seed rest (i + 1)
    match encryptWithKey v.decryptedValue newKey (seed + 2 * i) (seed + 2 * i + 1) with
    | .ok e => ((v.key, e) :: r.1, r.2)
    | .error _ => (r.1, v.key :: r.2)

/-- The aggregate error of `reEncryptAllVariables`. -/
def reEncryptFailMsg (ks : List Str) : Str :=
  "Failed to re-encrypt variable(s): ".data ++ List.intercalate ", ".data ks

/-- Modelled from the spec: `StagesFileManager.updateMultipleEnvironmentVariables`
(`updateMany`) — replace the value of every variable present in the update
map, leaving the rest unchanged. -/
def updateEnvValues (envFile : List (Str × Str)) (updates : List (Str × Str)) :
    List (Str × Str) :=
  envFile.map (fun p =>
    match lookupStr updates p.1 with
    | some nv => (p.1, nv)
    | none => p)

/-- `CryptoOperations.reEncryptAllVariables` (`part_004` lines 87-139):
encrypt every originally-encrypted variable with the new key, raise naming
all failures if any, otherwise write the updated variable file. -/
def reEncryptAllVariables (st : EngineState) (dvars : List DecryptedVariable)
    (newKey : Str) (seed : Nat) : Except Str (Nat × List Str × EngineState) :=
  let variablesToEncrypt := dvars.filter (·.wasEncrypted)
  let r := reEncryptLoop newKey seed variablesToEncrypt 0
  if !r.2.isEmpty then .error (reEncryptFailMsg r.2.reverse)
  else
    .ok (r.1.length, r.2,
      { st with envFile := updateEnvValues st.envFile r.1 })

/-- `RotationOptions` (`rotation.types.ts`) after defaulting. -/
structure RotationOptions where
  rotationReason : Str
  rotationDays : Int
  performedBy : Str
  forceRotation : Bool
  dryRun : Bool
deriving DecidableEq

/-- `RotationResult` (`rotation.types.ts`), without the wall-clock
`duration` field. -/
structure RotationResult where
  success : Bool
  keyName : Str
  environment : Str
  variablesProcessed : Nat
  variablesFailed : List Str
  oldKeyHash : Option Str
  newKeyHash : Option Str
deriving DecidableEq

/-- `RotationValidator.createDryRunResult` (`part_005` lines 10-26). -/
def createDryRunResult (keyName environment : Str)
    (dvars : List DecryptedVariable) : RotationResult :=
  { success := true, keyName := keyName, environment := environment,
    variablesProcessed := (dvars.filter (·.wasEncrypted)).length,
    variablesFailed := [], oldKeyHash := none, newKeyHash := none }

/-- `RotationValidator.validateRotationNecessary` (`part_005` lines 31-46):
throws only when the key neither needs rotation nor is forced and its
derived status is `active`. -/
def validateRotationNecessary (keyName : Str) (force : Bool)
    (mf : KeyMetadataFile) (now : Time) : Except Str Unit :=
  if force then .ok ()
  else
    let rs := checkKeyRotationStatus mf keyName now
    if !rs.needsRotation && rs.status == "active".data then
      .error ("Key does not need rotation yet. Use forceRotation: true to rotate anyway.".data)
    else .ok ()

/-- `SecretKeyOperations.getOldSecretKey` (`part_004` lines 248-267): a
missing or empty (`!oldKey`) stored value throws. -/
def getOldSecretKey (secretFile : List (Str × Str)) (keyName : Str) :
    Except Str Str :=
  match lookupStr secretFile keyName with
  | some v =>
    if v.isEmpty then .error ("Secret key not found in secret file".data)
    else .ok v
  | none => .error ("Secret key not found in secret file".data)

/-- `SecretKeyOperations.storeNewSecretKey` (`part_004` lines 272-287):
overwrite (`skipIfExists: false`); the subsequent `ensureSecretKeyExists`
re-read always succeeds right after the store. -/
def storeNewSecretKey (secretFile : List (Str × Str)) (keyName newKey : Str) :
    List (Str × Str) :=
  insertStr secretFile keyName newKey

/-- `RotationHistoryManager.updateRotationTracking` (`rotationHistoryManager.ts`
lines 116-152): track the key with `isRotation: true` (which also emits a
success audit record), then record the rotation entry; internal failures
are swallowed, so this step never throws. -/
def updateRotationTracking (st : EngineState) (keyName environment : Str)
    (oldHash newHash : Option Str) (reason : Str) (rotationDays : Int)
    (performedBy : Str) (success : Bool) (now : Time) : EngineState :=
  let mf' := trackSecretKey st.metadataFile keyName environment
    { rotationDays := rotationDays, isRotation := true, performedBy := performedBy } now
  let audit' := logAudit
    { action := "rotate".data, keyName := keyName, environment := environment,
      status := "success".data, details := "Key rotated successfully".data,
      performedBy := performedBy } now st.auditFile
  let rf' := recordRotation st.rotationFile keyName environment reason
    oldHash newHash performedBy success now
  { st with metadataFile := mf', auditFile := audit', rotationFile := rf' }

/-- The environment resolution of `rotateKeyWithReEncryption` lines 27-29
(modelled from the spec: `EnvironmentConfigManager`/`EnvironmentDetector`
are not part of the sources). -/
structure RotationEnv where
  currentEnvKey : Str
  currentEnv : Str
deriving DecidableEq

/-- The structured failure result of the catch block of
`rotateKeyWithReEncryption` (`rotationExecutor.ts` lines 130-137). -/
def rotationFailureResult (keyName environment : Str) : RotationResult :=
  { success := false, keyName := keyName, environment := environment,
    variablesProcessed := 0, variablesFailed := [], oldKeyHash := none,
    newKeyHash := none }

/-- `RotationExecutor.rotateKeyWithReEncryption` (`rotationExecutor.ts`
lines 15-139).  Every thrown step lands in the catch block, which records a
failed rotation (`updateRotationTracking` with `success=false`) on the
state as it stands at the failure and returns the structured failure
result. -/
def rotateKeyWithReEncryption (cfg : RotationEnv) (opts : RotationOptions)
    (st : EngineState) (now : Time) (seed : Nat) : RotationResult × EngineState :=
  let keyName := cfg.currentEnvKey
  let environment := cfg.currentEnv
  let fail := fun (stAt : EngineState) =>
    (rotationFailureResult keyName environment,
     updateRotationTracking stAt keyName environment none none
       opts.rotationReason opts.rotationDays opts.performedBy false now)
  match validateRotationNecessary keyName opts.forceRotation st.metadataFile now with
  | .error _ => fail st
  | .ok () =>
    match getOldSecretKey st.secretFile keyName with
    | .error _ => fail st
    | .ok oldKey =>
      let oldKeyHash := hashKey oldKey
      match decryptAllEnvironmentVariables st.envFile oldKey with
      | .error _ => fail st
      | .ok dvars =>
        if opts.dryRun then (createDryRunResult keyName environment dvars, st)
        else
          let newKey := generateBase64SecretKey seed
          let newKeyHash := hashKey newKey
          let st1 := { st with secretFile := storeNewSecretKey st.secretFile keyName newKey }
          match reEncryptAllVariables st1 dvars newKey seed with
          | .error _ => fail st1
          | .ok r =>
            let st3 := updateRotationTracking r.2.2 keyName environment
              (some oldKeyHash) (some newKeyHash) opts.rotationReason
              opts.rotationDays opts.performedBy true now
            ({ success := true, keyName := keyName, environment := environment,
               variablesProcessed := r.1, variablesFailed := r.2.1,
               oldKeyHash := some oldKeyHash, newKeyHash := some newKeyHash }, st3)

/-- A variable entry whose decryption with the given key is attempted and
fails during `decryptAllEnvironmentVariables`: its trimmed value is
non-empty, looks encrypted, and `decryptWithKey` raises on it. -/
def decryptFails (oldKey : Str) (p : Str × Str) : Prop :=
  (trimStr p.2).isEmpty = false ∧ isEncrypted (trimStr p.2) = true ∧
  ∃ err, decryptWithKey (trimStr p.2) oldKey = .error err

/-! ## Codec lemmas -/

theorem digitVal_digitChar {n : Nat} (h : n < 64) : digitVal (digitChar n) = n := by
  interval_cases n <;> decide

theorem isB64Char_digitChar {n : Nat} (h : n < 64) : isB64Char (digitChar n) = true := by
  interval_cases n <;> decide

theorem natToB64Quad_all_b64 {n : Nat} :
    ∀ c ∈ natToB64Quad n, isB64Char c = true := by
  intro c hc
  unfold natToB64Quad at hc
  simp only [List.mem_cons, List.not_mem_nil, or_false] at hc
  rcases hc with rfl | rfl | rfl | rfl <;>
    exact isB64Char_digitChar (Nat.mod_lt _ (by norm_num))

theorem b64Char_ne_sep {c : Char} (h : isB64Char c = true) : c ≠ ':' := by
  rintro rfl
  simp [isB64Char, Char.isUpper, Char.isLower, Char.isDigit] at h

theorem b64Char_ne_eq {c : Char} (h : isB64Char c = true) : c ≠ '=' := by
  rintro rfl
  simp [isB64Char, Char.isUpper, Char.isLower, Char.isDigit] at h

theorem quadVal_natToB64Quad {n : Nat} (h : n < quadRange) :
    (natToB64Quad n).length = 4 ∧
    quadVal (digitChar (n / (64 * 64 * 64) % 64)) (digitChar (n / (64 * 64) % 64))
      (digitChar (n / 64 % 64)) (digitChar (n % 64)) = n := by
  refine ⟨rfl, ?_⟩
  unfold quadVal
  rw [digitVal_digitChar (Nat.mod_lt _ (by norm_num)),
    digitVal_digitChar (Nat.mod_lt _ (by norm_num)),
    digitVal_digitChar (Nat.mod_lt _ (by norm_num)),
    digitVal_digitChar (Nat.mod_lt _ (by norm_num))]
  have h1 := Nat.div_add_mod n 64
  have h2 := Nat.div_add_mod (n / 64) 64
  have h3 := Nat.div_add_mod (n / (64 * 64)) 64
  have e2 : n / 64 / 64 = n / (64 * 64) := Nat.div_div_eq_div_mul n 64 64
  have e4 : n / (64 * 64) / 64 = n / (64 * 64 * 64) := Nat.div_div_eq_div_mul n (64 * 64) 64
  have hlt : n / (64 * 64 * 64) < 64 := by
    apply Nat.div_lt_of_lt_mul
    calc n < quadRange := h
      _ = 64 * 64 * 64 * 64 := by norm_num [quadRange]
  have hmod : n / (64 * 64 * 64) % 64 = n / (64 * 64 * 64) := Nat.mod_eq_of_lt hlt
  rw [hmod]
  rw [e2] at h2
  rw [e4] at h3
  omega

theorem encodeCodes_all_b64 {ns : List Nat} :
    ∀ c ∈ encodeCodes ns, isB64Char c = true := by
  induction ns with
  | nil => intro c hc; simp [encodeCodes] at hc
  | cons n rest ih =>
    intro c hc
    unfold encodeCodes at hc
    rcases List.mem_append.mp hc with h | h
    · exact natToB64Quad_all_b64 c h
    · exact ih c h

theorem length_encodeCodes (ns : List Nat) :
    (encodeCodes ns).length = 4 * ns.length := by
  induction ns with
  | nil => rfl
  | cons n rest ih =>
    unfold encodeCodes
    rw [List.length_append, ih]
    simp [natToB64Quad]
    ring

theorem decodeCodes_encodeCodes (ns : List Nat) (h : ∀ n ∈ ns, n < quadRange) :
    decodeCodes (encodeCodes ns) = some ns := by
  induction ns with
  | nil => rfl
  | cons n rest ih =>
    have hn : n < quadRange := h n (List.mem_cons_self n rest)
    have hrest : ∀ m ∈ rest, m < quadRange := fun m hm => h m (List.mem_cons_of_mem n hm)
    unfold encodeCodes natToB64Quad
    simp only [List.cons_append, List.nil_append]
    unfold decodeCodes
    rw [ih hrest]
    have hq := (quadVal_natToB64Quad hn).2
    rw [hq]

theorem not_sep_mem_of_all_b64 {cs : Str} (h : ∀ c ∈ cs, isB64Char c = true) :
    sepChar ∉ cs := by
  intro hmem
  exact b64Char_ne_sep (h _ hmem) rfl

theorem isValidBase64_of_all_b64 {cs : Str} (hne : cs ≠ [])
    (hb : ∀ c ∈ cs, isB64Char c = true) (hlen : cs.length % 4 = 0) :
    isValidBase64 cs = true := by
  unfold isValidBase64
  rw [if_neg (by simpa [List.isEmpty_iff] using hne)]
  have heqs : (cs.reverse.takeWhile (fun c => c = '=')).length = 0 := by
    rw [List.length_eq_zero]
    cases hrev : cs.reverse with
    | nil => simp [List.takeWhile]
    | cons a t =>
      have ha : a ∈ cs := by
        have : a ∈ cs.reverse := by rw [hrev]; exact List.mem_cons_self a t
        simpa using this
      have : (a = '=') = False := by
        simp [b64Char_ne_eq (hb a ha)]
      simp [List.takeWhile, decide_eq_true_eq, b64Char_ne_eq (hb a ha)]
  unfold base64Shape
  simp only [heqs]
  rw [Nat.sub_zero, List.take_length]
  have hall : cs.all isB64Char = true := List.all_eq_true.mpr hb
  simp [hall, hlen]

theorem isValidBase64_natToB64Quad {n : Nat} :
    isValidBase64 (natToB64Quad n) = true := by
  apply isValidBase64_of_all_b64
  · simp [natToB64Quad]
  · exact natToB64Quad_all_b64
  · simp [natToB64Quad]

theorem isValidBase64_encodeCodes {ns : List Nat} (h : ns ≠ []) :
    isValidBase64 (encodeCodes ns) = true := by
  apply isValidBase64_of_all_b64
  · intro he
    apply h
    have hlen := length_encodeCodes ns
    rw [he] at hlen
    simp only [List.length_nil] at hlen
    have : ns.length = 0 := by omega
    exact List.length_eq_zero.mp this
  · exact encodeCodes_all_b64
  · rw [length_encodeCodes]
    omega

theorem sep_not_mem_of_isValidBase64 {cs : Str} (h : isValidBase64 cs = true) :
    sepChar ∉ cs := by
  intro hmem
  unfold isValidBase64 at h
  split at h
  · exact absurd h (by simp)
  · obtain ⟨hshape, _⟩ := Bool.and_eq_true_iff.mp h
    unfold base64Shape at hshape
    obtain ⟨_, hall⟩ := Bool.and_eq_true_iff.mp hshape
    rw [List.all_eq_true] at hall
    have hsplit : cs = (cs.reverse.dropWhile (fun c => c = '=')).reverse ++
        (cs.reverse.takeWhile (fun c => c = '=')).reverse := by
      rw [← List.reverse_append, List.takeWhile_append_dropWhile, List.reverse_reverse]
    have hlenB : (cs.reverse.takeWhile (fun c => c = '=')).reverse.length =
        (cs.reverse.takeWhile (fun c => c = '=')).length := List.length_reverse _
    have hlenA : cs.length - (cs.reverse.takeWhile (fun c => c = '=')).length =
        (cs.reverse.dropWhile (fun c => c = '=')).reverse.length := by
      have htot := congrArg List.length
        (List.takeWhile_append_dropWhile (fun c => decide (c = '=')) cs.reverse)
      simp only [List.length_append, List.length_reverse] at htot ⊢
      omega
    have htake0 := List.take_left ((cs.reverse.dropWhile (fun c => c = '=')).reverse)
      ((cs.reverse.takeWhile (fun c => c = '=')).reverse)
    rw [← hsplit] at htake0
    have htake : cs.take (cs.length - (cs.reverse.takeWhile (fun c => c = '=')).length) =
        (cs.reverse.dropWhile (fun c => c = '=')).reverse := by
      rw [hlenA]
      exact htake0
    rcases List.mem_append.mp (hsplit ▸ hmem) with hA | hB
    · have hinTake : sepChar ∈
          cs.take (cs.length - (cs.reverse.takeWhile (fun c => c = '=')).length) := by
        rw [htake]; exact hA
      exact b64Char_ne_sep (hall _ hinTake) rfl
    · have : sepChar ∈ cs.reverse.takeWhile (fun c => c = '=') :=
        List.mem_reverse.mp hB
      have := List.mem_takeWhile_imp this
      simp [sepChar] at this

/-! ## Split lemmas -/

theorem splitOnSep_of_not_mem {sep : Char} {cs : Str} (h : sep ∉ cs) :
    splitOnSep sep cs = [cs] := by
  induction cs with
  | nil => rfl
  | cons c rest ih =>
    have hc : c ≠ sep := fun he => h (he ▸ List.mem_cons_self c rest)
    have hrest : sep ∉ rest := fun hm => h (List.mem_cons_of_mem c hm)
    unfold splitOnSep
    simp only [ih hrest]
    rw [if_neg hc]

theorem splitOnSep_append {sep : Char} {xs ys : Str} (h : sep ∉ xs) :
    splitOnSep sep (xs ++ sep :: ys) = xs :: splitOnSep sep ys := by
  induction xs with
  | nil =>
    simp only [List.nil_append]
    rw [splitOnSep]
    simp
  | cons c rest ih =>
    have hc : c ≠ sep := fun he => h (he ▸ List.mem_cons_self c rest)
    have hrest : sep ∉ rest := fun hm => h (List.mem_cons_of_mem c hm)
    simp only [List.cons_append]
    rw [splitOnSep]
    simp only [ih hrest]
    rw [if_neg hc]

/-! ## Envelope lemmas -/

theorem formatEncryptedPayload_eq (salt iv ct hmac : Str) :
    formatEncryptedPayload salt iv ct hmac =
      envMarker ++ (versionStr ++ sepChar ::
        (salt ++ sepChar :: (iv ++ sepChar :: (ct ++ sepChar :: hmac)))) := by
  unfold formatEncryptedPayload
  simp [List.append_assoc, List.cons_append]

theorem formatEncryptedPayload_drop (salt iv ct hmac : Str) :
    (formatEncryptedPayload salt iv ct hmac).drop envMarker.length =
      versionStr ++ sepChar :: (salt ++ sepChar :: (iv ++ sepChar :: (ct ++ sepChar :: hmac))) := by
  rw [formatEncryptedPayload_eq]
  exact List.drop_left _ _

theorem splitOnSep_envelope {salt iv ct hmac : Str}
    (hs : sepChar ∉ salt) (hi : sepChar ∉ iv) (hc : sepChar ∉ ct) (hh : sepChar ∉ hmac) :
    splitOnSep sepChar
      (versionStr ++ sepChar :: (salt ++ sepChar :: (iv ++ sepChar :: (ct ++ sepChar :: hmac)))) =
      [versionStr, salt, iv, ct, hmac] := by
  have hv : sepChar ∉ versionStr := by decide
  rw [splitOnSep_append hv, splitOnSep_append hs, splitOnSep_append hi,
    splitOnSep_append hc, splitOnSep_of_not_mem hh]

theorem isEncrypted_format {salt iv ct hmac : Str}
    (hs : isValidBase64 salt = true) (hi : isValidBase64 iv = true)
    (hc : isValidBase64 ct = true) (hh : isValidBase64 hmac = true) :
    isEncrypted (formatEncryptedPayload salt iv ct hmac) = true := by
  have hsplit := splitOnSep_envelope (sep_not_mem_of_isValidBase64 hs)
    (sep_not_mem_of_isValidBase64 hi) (sep_not_mem_of_isValidBase64 hc)
    (sep_not_mem_of_isValidBase64 hh)
  unfold isEncrypted
  rw [if_neg (by simp [formatEncryptedPayload, envMarker, List.isEmpty_iff])]
  have hpre : envMarker.isPrefixOf (formatEncryptedPayload salt iv ct hmac) = true := by
    unfold formatEncryptedPayload
    exact List.isPrefixOf_iff_prefix.mpr (List.prefix_append _ _)
  rw [hpre]
  simp only [Bool.not_true, Bool.false_eq_true, if_false]
  rw [formatEncryptedPayload_drop, hsplit]
  simp [hs, hi, hc, hh, expectedParts]

theorem parseEncryptedData_format {salt iv ct hmac : Str}
    (hs : isValidBase64 salt = true) (hi : isValidBase64 iv = true)
    (hc : isValidBase64 ct = true) (hh : isValidBase64 hmac = true) :
    parseEncryptedData (formatEncryptedPayload salt iv ct hmac) =
      .ok ⟨salt, iv, ct, hmac⟩ := by
  have hsplit := splitOnSep_envelope (sep_not_mem_of_isValidBase64 hs)
    (sep_not_mem_of_isValidBase64 hi) (sep_not_mem_of_isValidBase64 hc)
    (sep_not_mem_of_isValidBase64 hh)
  unfold parseEncryptedData
  rw [if_pos (isEncrypted_format hs hi hc hh), formatEncryptedPayload_drop, hsplit]

/-- Code units of a character stay below `quadRange` even after adding the
key stream unit. -/
theorem charCode_add_lt (c : Char) (k : Nat) (hk : k < 256) :
    c.toNat + k < quadRange := by
  have hv := c.valid
  unfold UInt32.isValidChar Nat.isValidChar at hv
  unfold Char.toNat
  unfold quadRange
  rcases hv with h | ⟨_, h⟩ <;> omega

theorem decodeCodes_encryptBuffer (iv : List Nat) (ek : EncKey) (value : Str) :
    decodeCodes (encodeCodes (encryptBuffer iv ek value)) = some (encryptBuffer iv ek value) := by
  apply decodeCodes_encodeCodes
  intro n hn
  unfold encryptBuffer at hn
  obtain ⟨c, _, rfl⟩ := List.mem_map.mp hn
  exact charCode_add_lt c _ (Nat.mod_lt _ (by norm_num))

theorem key_ne_nil_of_len {secretKey : Str} (hkey : 16 ≤ secretKey.length) :
    secretKey ≠ [] := by
  intro he
  rw [he] at hkey
  simp at hkey

theorem validateSecretKey_ok {secretKey : Str} (hkey : 16 ≤ secretKey.length) :
    validateSecretKey secretKey = .ok () := by
  unfold validateSecretKey
  rw [if_neg (by simpa [List.isEmpty_iff] using key_ne_nil_of_len hkey), if_neg (by omega)]

theorem validateInputs_ok {value secretKey : Str} (hv : value ≠ []) (hk : secretKey ≠ []) :
    validateInputs value secretKey = .ok () := by
  unfold validateInputs
  rw [if_neg (by simpa [List.isEmpty_iff] using hv),
    if_neg (by simpa [List.isEmpty_iff] using hk)]

theorem formatEncryptedPayload_ne_nil (salt iv ct hmac : Str) :
    formatEncryptedPayload salt iv ct hmac ≠ [] := by
  simp [formatEncryptedPayload, envMarker]

/-- C1 helper: decryption inverts `createEncryptedPayload` for matching
keys and the salt/IV produced by `generateEncryptionComponents`. -/
theorem decrypt_createEncryptedPayload (value secretKey : Str) (ent1 ent2 : Nat)
    (hkey : 16 ≤ secretKey.length) (hval : value ≠ []) :
    decryptWithKey
      (createEncryptedPayload value (generateBase64Salt ent1) (generateWebCryptoIV ent2)
        (deriveKeysWithArgon2 secretKey (generateBase64Salt ent1)).1
        (deriveKeysWithArgon2 secretKey (generateBase64Salt ent1)).2)
      secretKey = .ok value := by
  have hsaltValid : isValidBase64 (generateBase64Salt ent1) = true :=
    isValidBase64_natToB64Quad
  have hivValid : isValidBase64 (encodeCodes (generateWebCryptoIV ent2)) = true :=
    isValidBase64_encodeCodes (by simp [generateWebCryptoIV])
  have hctne : encryptBuffer (generateWebCryptoIV ent2)
      (deriveKeysWithArgon2 secretKey (generateBase64Salt ent1)).1 value ≠ [] := by
    unfold encryptBuffer
    simpa using hval
  have hctValid : isValidBase64 (encodeCodes (encryptBuffer (generateWebCryptoIV ent2)
      (deriveKeysWithArgon2 secretKey (generateBase64Salt ent1)).1 value)) = true :=
    isValidBase64_encodeCodes hctne
  have hhmValid : ∀ data : Str, isValidBase64
      (computeHMAC (deriveKeysWithArgon2 secretKey (generateBase64Salt ent1)).2 data) = true := by
    intro data
    unfold computeHMAC
    exact isValidBase64_natToB64Quad
  unfold createEncryptedPayload decryptWithKey
  rw [validateSecretKey_ok hkey,
    validateInputs_ok (formatEncryptedPayload_ne_nil _ _ _ _) (key_ne_nil_of_len hkey),
    parseEncryptedData_format hsaltValid hivValid hctValid (hhmValid _)]
  dsimp only
  unfold verifyHMACIntegrity
  rw [if_pos rfl]
  dsimp only
  unfold performDecryption
  rw [decodeCodes_encodeCodes (generateWebCryptoIV ent2) (by
    intro n hn
    simp only [generateWebCryptoIV, List.mem_singleton] at hn
    subst hn
    exact Nat.mod_lt _ (by norm_num [quadRange]))]
  rw [decodeCodes_encryptBuffer]
  dsimp only
  unfold encryptBuffer textDecode
  rw [List.map_map, List.map_map]
  have hcomp : ((Char.ofNat ∘ fun n => n - keyStreamByte
      (deriveKeysWithArgon2 secretKey (generateBase64Salt ent1)).1 (generateWebCryptoIV ent2)) ∘
      fun c => c.toNat + keyStreamByte
      (deriveKeysWithArgon2 secretKey (generateBase64Salt ent1)).1 (generateWebCryptoIV ent2)) = id := by
    funext c
    simp only [Function.comp_apply, Nat.add_sub_cancel, id_eq]
    exact Char.ofNat_toNat c
  rw [hcomp, List.map_id]

/-- The claim-facing round trip, phrased on `encryptWithKey`. -/
theorem decrypt_encryptWithKey (value secretKey : Str) (ent1 ent2 : Nat) (env : Str)
    (hkey : 16 ≤ secretKey.length) (hval : value ≠ [])
    (henc : encryptWithKey value secretKey ent1 ent2 = .ok env) :
    decryptWithKey env secretKey = .ok value := by
  unfold encryptWithKey at henc
  rw [validateSecretKey_ok hkey, validateInputs_ok hval (key_ne_nil_of_len hkey)] at henc
  simp only [generateEncryptionComponents, Except.ok.injEq] at henc
  rw [← henc]
  exact decrypt_createEncryptedPayload value secretKey ent1 ent2 hkey hval

/-! ## Detector characterization -/

theorem isEncrypted_eq_spec (v : Str) : isEncrypted v = isEncryptedSpec v := by
  unfold isEncrypted isEncryptedSpec
  by_cases hemp : v = []
  · subst hemp
    decide
  · rw [if_neg (by simpa [List.isEmpty_iff] using hemp)]
    by_cases hpre : envMarker.isPrefixOf v = true
    · simp only [hpre, Bool.not_true, Bool.false_eq_true, if_false, Bool.true_and]
      cases hparts : splitOnSep sepChar (v.drop envMarker.length) with
      | nil => simp [expectedParts]
      | cons a t =>
        by_cases hlen : (a :: t).length = expectedParts + 1
        · rw [if_neg (by omega)]
          simp only [hlen, decide_True, Bool.true_and, List.head?_cons, List.tail_cons]
          simp [Option.some.injEq]
        · rw [if_pos (by omega)]
          simp only [List.length_cons] at hlen
          simp
          intro hteq _
          exact absurd (by omega) hlen
    · have hpre' : envMarker.isPrefixOf v = false := by
        cases h : envMarker.isPrefixOf v
        · rfl
        · exact absurd h hpre
      simp [hpre']

theorem value_ne_nil_of_validateInputs {value secretKey : Str}
    (h : validateInputs value secretKey = .ok ()) : value ≠ [] := by
  unfold validateInputs at h
  split at h
  · exact absurd h (by simp)
  · intro he
    rename_i hne
    rw [he] at hne
    simp at hne

theorem isEncrypted_encryptWithKey {value secretKey env : Str} {ent1 ent2 : Nat}
    (henc : encryptWithKey value secretKey ent1 ent2 = .ok env) :
    isEncrypted env = true := by
  unfold encryptWithKey at henc
  cases hv1 : validateSecretKey secretKey with
  | error e => rw [hv1] at henc; exact absurd henc (by simp)
  | ok u =>
    cases u
    rw [hv1] at henc
    cases hv2 : validateInputs value secretKey with
    | error e => rw [hv2] at henc; exact absurd henc (by simp)
    | ok u2 =>
      cases u2
      rw [hv2] at henc
      have hval : value ≠ [] := value_ne_nil_of_validateInputs hv2
      simp only [generateEncryptionComponents, Except.ok.injEq] at henc
      rw [← henc]
      unfold createEncryptedPayload
      apply isEncrypted_format
      · exact isValidBase64_natToB64Quad
      · exact isValidBase64_encodeCodes (by simp [generateWebCryptoIV])
      · apply isValidBase64_encodeCodes
        unfold encryptBuffer
        simpa using hval
      · unfold computeHMAC
        exact isValidBase64_natToB64Quad

/-! ## Claim theorems: crypto engine -/

/-- C1: for every secret key of length at least 16 and every non-empty
plaintext, decrypting the envelope produced by `encryptWithKey` with the
same key returns the original plaintext (for any salt/IV entropy used at
encryption time). -/
theorem claim_C1_roundTrip (value secretKey : Str) (ent1 ent2 : Nat) (env : Str)
    (hkey : 16 ≤ secretKey.length) (hval : value ≠ [])
    (henc : encryptWithKey value secretKey ent1 ent2 = .ok env) :
    decryptWithKey env secretKey = .ok value :=
  decrypt_encryptWithKey value secretKey ent1 ent2 env hkey hval henc

/-- C1 witness: the round trip at a concrete key, plaintext and entropy. -/
theorem claim_C1_roundTrip_witness :
    16 ≤ ("0123456789ABCDEF".data : Str).length ∧ ("hi".data : Str) ≠ [] ∧
    encryptWithKey "hi".data "0123456789ABCDEF".data 1 2 =
      .ok "ENC2:v1:AAAB:AAAC:AAERAAES:ABJm".data ∧
    decryptWithKey "ENC2:v1:AAAB:AAAC:AAERAAES:ABJm".data "0123456789ABCDEF".data =
      .ok "hi".data :=
  ⟨by decide, by decide, by decide,
    claim_C1_roundTrip "hi".data "0123456789ABCDEF".data 1 2
      "ENC2:v1:AAAB:AAAC:AAERAAES:ABJm".data (by decide) (by decide) (by decide)⟩

/-- C5: the detector agrees pointwise with the specification's
characterization (prefix, exactly `EXPECTED_PARTS+1` segments after the
prefix, version first, base64 segments) — in particular it is a total
boolean function that rejects malformed input without raising — and it
accepts every envelope `encryptWithKey` produces. -/
theorem claim_C5_detector :
    (∀ v : Str, isEncrypted v = isEncryptedSpec v) ∧
    (∀ (value secretKey env : Str) (ent1 ent2 : Nat),
      encryptWithKey value secretKey ent1 ent2 = .ok env → isEncrypted env = true) :=
  ⟨isEncrypted_eq_spec, fun _ _ _ _ _ henc => isEncrypted_encryptWithKey henc⟩

/-- C5 witness: detector soundness at a concrete envelope produced by
encryption. -/
theorem claim_C5_detector_witness :
    encryptWithKey "hi".data "0123456789ABCDEF".data 1 2 =
      .ok "ENC2:v1:AAAB:AAAC:AAERAAES:ABJm".data ∧
    isEncrypted "ENC2:v1:AAAB:AAAC:AAERAAES:ABJm".data = true :=
  ⟨by decide,
    claim_C5_detector.2 "hi".data "0123456789ABCDEF".data
      "ENC2:v1:AAAB:AAAC:AAERAAES:ABJm".data 1 2 (by decide)⟩

/-! ## Claim theorems: expiration policy -/

/-- C6: with `daysUntilExpiration = floor((expiresAt − now) / 1 day)` and
threshold 7, the classifier returns `expired` iff the day count is
negative, `expiring_soon` iff it is between 0 and 7, and `active`
otherwise; `now + 7 days` is `expiring_soon`, `now + 8 days` is `active`,
and `now − 1 second` is `expired`. -/
theorem claim_C6_statusClassifier (expiresAt now : Time) :
    (determineKeyStatusDefault expiresAt now = .expired ↔
      calculateDaysUntilExpiration expiresAt now < 0) ∧
    (determineKeyStatusDefault expiresAt now = .expiringSoon ↔
      0 ≤ calculateDaysUntilExpiration expiresAt now ∧
        calculateDaysUntilExpiration expiresAt now ≤ 7) ∧
    (determineKeyStatusDefault expiresAt now = .active ↔
      7 < calculateDaysUntilExpiration expiresAt now) ∧
    determineKeyStatusDefault (now + 7 * dayMs) now = .expiringSoon ∧
    determineKeyStatusDefault (now + 8 * dayMs) now = .active ∧
    determineKeyStatusDefault (now - 1000) now = .expired := by
  have hday : calculateDaysUntilExpiration (now + 7 * dayMs) now = 7 := by
    unfold calculateDaysUntilExpiration
    rw [show now + 7 * dayMs - now = 7 * dayMs by ring]
    exact Int.mul_ediv_cancel 7 (by norm_num [dayMs])
  have hday8 : calculateDaysUntilExpiration (now + 8 * dayMs) now = 8 := by
    unfold calculateDaysUntilExpiration
    rw [show now + 8 * dayMs - now = 8 * dayMs by ring]
    exact Int.mul_ediv_cancel 8 (by norm_num [dayMs])
  have hdayNeg : calculateDaysUntilExpiration (now - 1000) now = -1 := by
    unfold calculateDaysUntilExpiration
    rw [show now - 1000 - now = -1000 by ring]
    decide
  unfold determineKeyStatusDefault determineKeyStatus expiringSoonThresholdDays
  dsimp only
  refine ⟨?_, ?_, ?_, ?_, ?_, ?_⟩
  · split_ifs with h1 h2 <;> simp_all <;> omega
  · split_ifs with h1 h2 <;> simp_all <;> omega
  · split_ifs with h1 h2 <;> simp_all <;> omega
  · rw [hday]; norm_num
  · rw [hday8]; norm_num
  · rw [hdayNeg]; norm_num

/-! ## Store lemmas -/

theorem lookupStr_insertStr {α : Type} (l : List (Str × α)) (key : Str) (v : α) :
    lookupStr (insertStr l key v) key = some v := by
  unfold insertStr
  split
  · rename_i hsome
    induction l with
    | nil => simp [lookupStr] at hsome
    | cons p rest ih =>
      by_cases hpk : p.1 = key
      · simp only [List.map_cons, if_pos hpk]
        unfold lookupStr
        rw [if_pos rfl]
      · unfold lookupStr at hsome
        rw [if_neg hpk] at hsome
        simp only [List.map_cons, if_neg hpk]
        unfold lookupStr
        rw [if_neg hpk]
        exact ih hsome
  · induction l with
    | nil => simp [lookupStr]
    | cons p rest ih =>
      rename_i hnone
      unfold lookupStr at hnone
      by_cases hpk : p.1 = key
      · rw [if_pos hpk] at hnone
        simp at hnone
      · rw [if_neg hpk] at hnone
        simp only [List.cons_append]
        unfold lookupStr
        rw [if_neg hpk]
        exact ih hnone

theorem mem_of_lookupStr {α : Type} {l : List (Str × α)} {key : Str} {v : α}
    (h : lookupStr l key = some v) : (key, v) ∈ l := by
  induction l with
  | nil => simp [lookupStr] at h
  | cons p rest ih =>
    unfold lookupStr at h
    by_cases hpk : p.1 = key
    · rw [if_pos hpk] at h
      have hv : p.2 = v := by simpa using h
      have : p = (key, v) := by
        cases p
        simp_all
      rw [← this]
      exact List.mem_cons_self p rest
    · rw [if_neg hpk] at h
      exact List.mem_cons_of_mem p (ih h)

/-- `trackSecretKey` writes the metadata whose `rotationCount` is
`existing + 1` under `isRotation`, and `0` otherwise. -/
theorem trackSecretKey_rotationCount (mf : KeyMetadataFile) (keyName environment : Str)
    (opts : TrackOptions) (now : Time) (m : SecretKeyMetadata)
    (hlook : lookupStr mf.keys keyName = some m) :
    (lookupStr (trackSecretKey mf keyName environment opts now).keys keyName).map
      (·.rotationCount) = some (if opts.isRotation then m.rotationCount + 1 else 0) := by
  unfold trackSecretKey
  dsimp only
  rw [hlook]
  rw [lookupStr_insertStr]
  simp

/-- C6 witness: the seven-day boundary instance at a concrete clock. -/
theorem claim_C6_statusClassifier_witness :
    determineKeyStatusDefault (0 + 7 * dayMs) 0 = .expiringSoon :=
  (claim_C6_statusClassifier 0 0).2.2.2.1

/-! ## Claim theorems: metadata store -/

/-- C9: for a key with no stored metadata, `checkKeyRotationStatus`
returns `{needsRotation: true, daysUntilExpiration: 0, status: "unknown"}`
(a status outside the documented three-state enum), and
`validateRotationNecessary` consequently does not throw for the untracked
key, so a non-forced rotation of it proceeds past validation. -/
theorem claim_C9_untrackedKey (mf : KeyMetadataFile) (keyName : Str) (now : Time)
    (h : lookupStr mf.keys keyName = none) :
    checkKeyRotationStatus mf keyName now =
      { needsRotation := true, daysUntilExpiration := 0, status := unknownStatus } ∧
    (∀ s : KeyStatus, statusToStr s ≠ unknownStatus) ∧
    validateRotationNecessary keyName false mf now = .ok () := by
  have hcheck : checkKeyRotationStatus mf keyName now =
      { needsRotation := true, daysUntilExpiration := 0, status := unknownStatus } := by
    unfold checkKeyRotationStatus getKeyMetadata
    rw [h]
  refine ⟨hcheck, ?_, ?_⟩
  · intro s
    cases s <;> decide
  · unfold validateRotationNecessary
    rw [if_neg (by simp)]
    dsimp only
    rw [hcheck]
    simp

/-- C9 witness: the empty metadata file at a concrete key name. -/
theorem claim_C9_untrackedKey_witness :
    lookupStr (⟨[], 0⟩ : KeyMetadataFile).keys "SECRET_KEY_UAT".data = none ∧
    checkKeyRotationStatus ⟨[], 0⟩ "SECRET_KEY_UAT".data 0 =
      { needsRotation := true, daysUntilExpiration := 0, status := unknownStatus } ∧
    validateRotationNecessary "SECRET_KEY_UAT".data false ⟨[], 0⟩ 0 = .ok () := by
  have h := claim_C9_untrackedKey ⟨[], 0⟩ "SECRET_KEY_UAT".data 0 (by decide)
  exact ⟨by decide, h.1, h.2.2⟩

/-- C10: a key expiring within the next day (day count 0) is classified
`expiring_soon` by the classifier, yet `checkKeyRotationStatus` reports
`needsRotation = true` and `getKeysNeedingRotation` includes it with the
status overwritten to `expired`, because those use `daysUntilExpiration <= 0`
while the classifier uses `< 0`. -/
theorem claim_C10_zeroDayBoundary (mf : KeyMetadataFile) (k : Str)
    (m : SecretKeyMetadata) (now : Time)
    (hlook : lookupStr mf.keys k = some m)
    (h0 : 0 ≤ m.expiresAt - now) (h1 : m.expiresAt - now < dayMs) :
    determineKeyStatusDefault m.expiresAt now = .expiringSoon ∧
    (checkKeyRotationStatus mf k now).needsRotation = true ∧
    { m with status := KeyStatus.expired } ∈ getKeysNeedingRotation mf now := by
  have hd : calculateDaysUntilExpiration m.expiresAt now = 0 := by
    unfold calculateDaysUntilExpiration
    exact Int.ediv_eq_zero_of_lt h0 h1
  refine ⟨?_, ?_, ?_⟩
  · unfold determineKeyStatusDefault determineKeyStatus
    rw [hd]
    norm_num [expiringSoonThresholdDays]
  · unfold checkKeyRotationStatus getKeyMetadata
    rw [hlook]
    dsimp only
    rw [hd]
    simp
  · unfold getKeysNeedingRotation
    apply List.mem_filterMap.mpr
    refine ⟨(k, m), mem_of_lookupStr hlook, ?_⟩
    rw [if_pos (by rw [hd])]

/-- C10 witness: a concrete metadata file with an entry half a day from
expiry. -/
theorem claim_C10_zeroDayBoundary_witness :
    lookupStr [("SECRET_KEY_DEV".data,
      ({ keyName := "SECRET_KEY_DEV".data, environment := "dev".data, createdAt := 0,
         expiresAt := 43200000, rotationDays := 90, lastRotatedAt := none,
         rotationCount := 1, status := .active,
         performedBy := "u".data } : SecretKeyMetadata))] "SECRET_KEY_DEV".data =
      some { keyName := "SECRET_KEY_DEV".data, environment := "dev".data, createdAt := 0,
             expiresAt := 43200000, rotationDays := 90, lastRotatedAt := none,
             rotationCount := 1, status := .active, performedBy := "u".data } ∧
    (0 : Int) ≤ 43200000 - 0 ∧ (43200000 : Int) - 0 < dayMs ∧
    determineKeyStatusDefault 43200000 0 = .expiringSoon ∧
    (checkKeyRotationStatus ⟨[("SECRET_KEY_DEV".data,
      { keyName := "SECRET_KEY_DEV".data, environment := "dev".data, createdAt := 0,
        expiresAt := 43200000, rotationDays := 90, lastRotatedAt := none,
        rotationCount := 1, status := .active, performedBy := "u".data })], 0⟩
      "SECRET_KEY_DEV".data 0).needsRotation = true := by
  have h := claim_C10_zeroDayBoundary
    ⟨[("SECRET_KEY_DEV".data,
      { keyName := "SECRET_KEY_DEV".data, environment := "dev".data, createdAt := 0,
        expiresAt := 43200000, rotationDays := 90, lastRotatedAt := none,
        rotationCount := 1, status := .active, performedBy := "u".data })], 0⟩
    "SECRET_KEY_DEV".data
    { keyName := "SECRET_KEY_DEV".data, environment := "dev".data, createdAt := 0,
      expiresAt := 43200000, rotationDays := 90, lastRotatedAt := none,
      rotationCount := 1, status := .active, performedBy := "u".data }
    0 (by decide) (by decide) (by decide)
  exact ⟨by decide, by decide, by decide, h.1, h.2.1⟩

/-! ## Rotation workflow lemmas -/

theorem reEncrypt_ok_stores {st : EngineState} {dv : List DecryptedVariable}
    {newKey : Str} {seed : Nat} {r : Nat × List Str × EngineState}
    (h : reEncryptAllVariables st dv newKey seed = .ok r) :
    r.2.2.metadataFile = st.metadataFile ∧ r.2.2.secretFile = st.secretFile ∧
    r.2.2.rotationFile = st.rotationFile ∧ r.2.2.auditFile = st.auditFile := by
  unfold reEncryptAllVariables at h
  dsimp only at h
  split at h
  · exact absurd h (by simp)
  · have := (Except.ok.injEq _ _).mp h
    rw [← this]
    exact ⟨rfl, rfl, rfl, rfl⟩

theorem updateRotationTracking_metadataFile (st : EngineState)
    (keyName environment : Str) (oldHash newHash : Option Str) (reason : Str)
    (rotationDays : Int) (performedBy : Str) (success : Bool) (now : Time) :
    (updateRotationTracking st keyName environment oldHash newHash reason
        rotationDays performedBy success now).metadataFile =
      trackSecretKey st.metadataFile keyName environment
        { rotationDays := rotationDays, isRotation := true,
          performedBy := performedBy } now := rfl

/-! ## Claim theorems: rotation count -/

/-- C3 counterexample: `trackSecretKey` without `isRotation` on an already
tracked key resets `rotationCount` from 5 to 0 — a decrease, contradicting
"never decreased by any operation (trackSecretKey with or without
isRotation, ...)". -/
theorem claim_C3_counterexample :
    (lookupStr ([("SECRET_KEY_DEV".data,
      ({ keyName := "SECRET_KEY_DEV".data, environment := "dev".data, createdAt := 0,
         expiresAt := 7776000000, rotationDays := 90, lastRotatedAt := none,
         rotationCount := 5, status := .active,
         performedBy := "u".data } : SecretKeyMetadata))]) "SECRET_KEY_DEV".data).map
      (·.rotationCount) = some 5 ∧
    (lookupStr (trackSecretKey
        ⟨[("SECRET_KEY_DEV".data,
          { keyName := "SECRET_KEY_DEV".data, environment := "dev".data, createdAt := 0,
            expiresAt := 7776000000, rotationDays := 90, lastRotatedAt := none,
            rotationCount := 5, status := .active, performedBy := "u".data })], 0⟩
        "SECRET_KEY_DEV".data "dev".data
        { rotationDays := 90, isRotation := false, performedBy := "u".data } 0).keys
      "SECRET_KEY_DEV".data).map (·.rotationCount) = some 0 := by
  constructor
  · decide
  · decide

/-- C3 amended: for a tracked key, every successful non-dry-run rotation
stores metadata with `rotationCount` exactly one larger; more generally
`trackSecretKey` with `isRotation` increments the tracked count by exactly
one (also on the failed-rotation tracking path), while `trackSecretKey`
without `isRotation` resets it to 0 — the only decreasing update. -/
theorem claim_C3_amended :
    (∀ (cfg : RotationEnv) (opts : RotationOptions) (st : EngineState)
        (now : Time) (seed : Nat) (m : SecretKeyMetadata),
      opts.dryRun = false →
      lookupStr st.metadataFile.keys cfg.currentEnvKey = some m →
      (rotateKeyWithReEncryption cfg opts st now seed).1.success = true →
      (lookupStr (rotateKeyWithReEncryption cfg opts st now seed).2.metadataFile.keys
        cfg.currentEnvKey).map (·.rotationCount) = some (m.rotationCount + 1)) ∧
    (∀ (mf : KeyMetadataFile) (keyName environment : Str) (opts : TrackOptions)
        (now : Time) (m : SecretKeyMetadata),
      lookupStr mf.keys keyName = some m →
      (lookupStr (trackSecretKey mf keyName environment opts now).keys keyName).map
        (·.rotationCount) = some (if opts.isRotation then m.rotationCount + 1 else 0)) := by
  constructor
  · intro cfg opts st now seed m hdry hlook hsucc
    unfold rotateKeyWithReEncryption at hsucc ⊢
    dsimp only at hsucc ⊢
    cases hv : validateRotationNecessary cfg.currentEnvKey opts.forceRotation st.metadataFile now with
    | error e =>
      rw [hv] at hsucc
      simp [rotationFailureResult] at hsucc
    | ok u =>
      cases u
      rw [hv] at hsucc
      dsimp only at hsucc
      dsimp only
      cases hold : getOldSecretKey st.secretFile cfg.currentEnvKey with
      | error e =>
        rw [hold] at hsucc
        simp [rotationFailureResult] at hsucc
      | ok oldKey =>
        rw [hold] at hsucc
        dsimp only at hsucc
        dsimp only
        cases hdec : decryptAllEnvironmentVariables st.envFile oldKey with
        | error e =>
          rw [hdec] at hsucc
          simp [rotationFailureResult] at hsucc
        | ok dv =>
          rw [hdec] at hsucc
          dsimp only at hsucc
          dsimp only
          rw [hdry] at hsucc ⊢
          rw [if_neg (show ¬(false = true) by simp)] at hsucc ⊢
          cases hre : reEncryptAllVariables ({ st with secretFile := storeNewSecretKey st.secretFile cfg.currentEnvKey (generateBase64SecretKey seed) }) dv (generateBase64SecretKey seed) seed with
          | error e =>
            rw [hre] at hsucc
            simp [rotationFailureResult] at hsucc
          | ok r =>
            dsimp only
            rw [updateRotationTracking_metadataFile]
            have hmeta := (reEncrypt_ok_stores hre).1
            dsimp only at hmeta
            rw [hmeta]
            have := trackSecretKey_rotationCount st.metadataFile cfg.currentEnvKey
              cfg.currentEnv
              { rotationDays := opts.rotationDays, isRotation := true,
                performedBy := opts.performedBy } now m hlook
            simpa using this
  · intro mf keyName environment opts now m hlook
    exact trackSecretKey_rotationCount mf keyName environment opts now m hlook

/-- C3 amended witness: the increment at a concrete tracked key. -/
theorem claim_C3_amended_witness :
    lookupStr ([("SECRET_KEY_DEV".data,
      ({ keyName := "SECRET_KEY_DEV".data, environment := "dev".data, createdAt := 0,
         expiresAt := 7776000000, rotationDays := 90, lastRotatedAt := none,
         rotationCount := 5, status := .active,
         performedBy := "u".data } : SecretKeyMetadata))]) "SECRET_KEY_DEV".data =
      some { keyName := "SECRET_KEY_DEV".data, environment := "dev".data, createdAt := 0,
             expiresAt := 7776000000, rotationDays := 90, lastRotatedAt := none,
             rotationCount := 5, status := .active, performedBy := "u".data } ∧
    (lookupStr (trackSecretKey
        ⟨[("SECRET_KEY_DEV".data,
          { keyName := "SECRET_KEY_DEV".data, environment := "dev".data, createdAt := 0,
            expiresAt := 7776000000, rotationDays := 90, lastRotatedAt := none,
            rotationCount := 5, status := .active, performedBy := "u".data })], 0⟩
        "SECRET_KEY_DEV".data "dev".data
        { rotationDays := 90, isRotation := true, performedBy := "u".data } 0).keys
      "SECRET_KEY_DEV".data).map (·.rotationCount) = some 6 := by
  refine ⟨by decide, ?_⟩
  have h := claim_C3_amended.2
    ⟨[("SECRET_KEY_DEV".data,
      { keyName := "SECRET_KEY_DEV".data, environment := "dev".data, createdAt := 0,
        expiresAt := 7776000000, rotationDays := 90, lastRotatedAt := none,
        rotationCount := 5, status := .active, performedBy := "u".data })], 0⟩
    "SECRET_KEY_DEV".data "dev".data
    { rotationDays := 90, isRotation := true, performedBy := "u".data } 0
    { keyName := "SECRET_KEY_DEV".data, environment := "dev".data, createdAt := 0,
      expiresAt := 7776000000, rotationDays := 90, lastRotatedAt := none,
      rotationCount := 5, status := .active, performedBy := "u".data }
    (by decide)
  simpa using h

/-! ## Audit store lemmas -/

theorem take_append_take {α : Type} (xs : List α) :
    ∀ (n m : Nat) (ys : List α), n ≤ m →
      (xs ++ ys.take m).take n = (xs ++ ys).take n := by
  induction xs with
  | nil =>
    intro n m ys h
    simp only [List.nil_append]
    rw [List.take_take]
    congr 1
    omega
  | cons x rest ih =>
    intro n m ys h
    cases n with
    | zero => rfl
    | succ k =>
      simp only [List.cons_append, List.take_succ_cons]
      rw [ih k m ys (by omega)]

theorem logAudit_logs (p : AuditPayload) (now : Time) (f : AuditLogFile) :
    (logAudit p now f).logs = (stampEntry p now :: f.logs).take maxAuditEntries := by
  unfold logAudit
  dsimp only
  split
  · rfl
  · rename_i hle
    rw [List.take_all_of_le (by omega)]

theorem logAudit_length_le (p : AuditPayload) (now : Time) (f : AuditLogFile) :
    (logAudit p now f).logs.length ≤ maxAuditEntries := by
  rw [logAudit_logs]
  exact List.length_take_le _ _

theorem logMany_logs (now : Time) :
    ∀ (ps : List AuditPayload) (f : AuditLogFile), f.logs.length ≤ maxAuditEntries →
      (logMany ps now f).logs =
        (ps.reverse.map (fun q => stampEntry q now) ++ f.logs).take maxAuditEntries := by
  intro ps
  induction ps with
  | nil =>
    intro f h
    simp only [logMany, List.foldl_nil, List.reverse_nil, List.map_nil, List.nil_append]
    exact (List.take_all_of_le h).symm
  | cons p rest ih =>
    intro f h
    have hstep : logMany (p :: rest) now f = logMany rest now (logAudit p now f) := by
      simp [logMany]
    rw [hstep, ih (logAudit p now f) (logAudit_length_le p now f)]
    rw [logAudit_logs]
    rw [take_append_take _ _ _ _ (le_refl maxAuditEntries)]
    congr 1
    simp [List.append_assoc]

theorem reverse_take_of_length {α : Type} (ps : List α) (n : Nat)
    (h : ps.length = n + 1) : ps.reverse.take n = (ps.drop 1).reverse := by
  cases ps with
  | nil => simp at h
  | cons a t =>
    simp only [List.reverse_cons, List.drop_succ_cons, List.drop_zero]
    have hlen : t.reverse.length = n := by
      simp only [List.length_reverse]
      simpa using h
    exact List.take_left' hlen

/-! ## Claim theorems: audit store -/

/-- C8: `logAudit` stamps the entry with the clock time and inserts it at
the head, the log length never exceeds 10000 after any call, and logging
10001 entries into an empty store leaves exactly the 10000 most recent
entries newest-first — the single oldest entry is the one evicted. -/
theorem claim_C8_auditBound :
    (∀ (f : AuditLogFile) (p : AuditPayload) (now : Time),
      (logAudit p now f).logs.head? = some (stampEntry p now) ∧
      (stampEntry p now).timestamp = now ∧
      (logAudit p now f).logs.length ≤ maxAuditEntries) ∧
    (∀ (ps : List AuditPayload) (now : Time), ps.length = 10001 →
      (logMany ps now emptyAuditFile).logs =
        (ps.drop 1).reverse.map (fun q => stampEntry q now) ∧
      (logMany ps now emptyAuditFile).logs.length = 10000) := by
  constructor
  · intro f p now
    refine ⟨?_, rfl, logAudit_length_le p now f⟩
    rw [logAudit_logs]
    rw [show maxAuditEntries = 9999 + 1 from rfl, List.take_succ_cons]
    rfl
  · intro ps now hlen
    have hmain : (logMany ps now emptyAuditFile).logs =
        (ps.drop 1).reverse.map (fun q => stampEntry q now) := by
      rw [logMany_logs now ps emptyAuditFile (by simp [emptyAuditFile])]
      simp only [emptyAuditFile, List.append_nil]
      rw [← List.map_take, reverse_take_of_length ps maxAuditEntries (by
        rw [hlen]
        rfl)]
    refine ⟨hmain, ?_⟩
    rw [hmain]
    simp only [List.length_map, List.length_reverse, List.length_drop]
    omega

/-- C8 witness: a concrete list of 10001 identical payloads. -/
theorem claim_C8_auditBound_witness :
    (List.replicate 10001
      ({ action := "create".data, keyName := "k".data, environment := "dev".data,
         status := "success".data, details := "d".data,
         performedBy := "u".data } : AuditPayload)).length = 10001 ∧
    (logMany (List.replicate 10001
      { action := "create".data, keyName := "k".data, environment := "dev".data,
        status := "success".data, details := "d".data, performedBy := "u".data })
      0 emptyAuditFile).logs.length = 10000 := by
  constructor
  · exact List.length_replicate 10001 _
  · exact (claim_C8_auditBound.2 (List.replicate 10001
      { action := "create".data, keyName := "k".data, environment := "dev".data,
        status := "success".data, details := "d".data, performedBy := "u".data })
      0 (List.length_replicate 10001 _)).2

/-! ## Decrypt-all decomposition -/

theorem decryptAllGo_error {oldKey : Str} :
    ∀ (l : List (Str × Str)) (acc : List DecryptedVariable) (e : Str),
      decryptAllGo oldKey l acc [] = .error e →
      ∃ pre k v post, l = pre ++ (k, v) :: post ∧
        decryptFails oldKey (k, v) ∧
        (∀ q ∈ pre, ¬ decryptFails oldKey q) ∧
        e = decryptFailMsg k := by
  intro l
  induction l with
  | nil =>
    intro acc e h
    unfold decryptAllGo at h
    simp at h
  | cons p rest ih =>
    intro acc e h
    obtain ⟨k, v⟩ := p
    unfold decryptAllGo at h
    dsimp only at h
    by_cases hskip : ((trimStr v).isEmpty || !isEncrypted (trimStr v)) = true
    · rw [if_pos hskip] at h
      obtain ⟨pre, k', v', post, hsplit, hfails, hpre, hmsg⟩ := ih _ e h
      refine ⟨(k, v) :: pre, k', v', post, by rw [hsplit, List.cons_append], hfails, ?_, hmsg⟩
      intro q hq
      rcases List.mem_cons.mp hq with rfl | hq'
      · intro hf
        rcases Bool.or_eq_true_iff.mp hskip with hemp | hnenc
        · exact absurd hf.1 (by rw [hemp]; simp)
        · have : isEncrypted (trimStr v) = false := by
            cases hcase : isEncrypted (trimStr v)
            · rfl
            · rw [hcase] at hnenc; simp at hnenc
          exact absurd hf.2.1 (by rw [this]; simp)
      · exact hpre q hq'
    · rw [if_neg hskip] at h
      have hemp : (trimStr v).isEmpty = false := by
        cases hcase : (trimStr v).isEmpty
        · rfl
        · exact absurd (by rw [hcase]; rfl) hskip
      have henc : isEncrypted (trimStr v) = true := by
        cases hcase : isEncrypted (trimStr v)
        · exact absurd (by rw [hemp, hcase]; rfl) hskip
        · rfl
      cases hdecv : decryptWithKey (trimStr v) oldKey with
      | ok d =>
        rw [hdecv] at h
        obtain ⟨pre, k', v', post, hsplit, hfails, hpre, hmsg⟩ := ih _ e h
        refine ⟨(k, v) :: pre, k', v', post, by rw [hsplit, List.cons_append], hfails, ?_, hmsg⟩
        intro q hq
        rcases List.mem_cons.mp hq with rfl | hq'
        · intro hf
          obtain ⟨err, herr⟩ := hf.2.2
          rw [hdecv] at herr
          exact absurd herr (by simp)
        · exact hpre q hq'
      | error err =>
        rw [hdecv] at h
        have he : e = decryptFailMsg k := by
          have := (Except.error.injEq _ _).mp h
          exact this.symm
        exact ⟨[], k, v, rest, by simp, ⟨hemp, henc, err, hdecv⟩, by simp, he⟩

/-! ## Rotation shape lemmas -/

theorem rotate_decrypt_error (cfg : RotationEnv) (opts : RotationOptions)
    (st : EngineState) (now : Time) (seed : Nat) (oldKey : Str) (e : Str)
    (hval : validateRotationNecessary cfg.currentEnvKey opts.forceRotation
      st.metadataFile now = .ok ())
    (hold : getOldSecretKey st.secretFile cfg.currentEnvKey = .ok oldKey)
    (hdec : decryptAllEnvironmentVariables st.envFile oldKey = .error e) :
    rotateKeyWithReEncryption cfg opts st now seed =
      (rotationFailureResult cfg.currentEnvKey cfg.currentEnv,
       updateRotationTracking st cfg.currentEnvKey cfg.currentEnv none none
         opts.rotationReason opts.rotationDays opts.performedBy false now) := by
  unfold rotateKeyWithReEncryption
  dsimp only
  rw [hval]
  dsimp only
  rw [hold]
  dsimp only
  rw [hdec]

theorem rotate_dryRun_ok (cfg : RotationEnv) (opts : RotationOptions)
    (st : EngineState) (now : Time) (seed : Nat) (oldKey : Str)
    (dv : List DecryptedVariable)
    (hdry : opts.dryRun = true)
    (hval : validateRotationNecessary cfg.currentEnvKey opts.forceRotation
      st.metadataFile now = .ok ())
    (hold : getOldSecretKey st.secretFile cfg.currentEnvKey = .ok oldKey)
    (hdec : decryptAllEnvironmentVariables st.envFile oldKey = .ok dv) :
    rotateKeyWithReEncryption cfg opts st now seed =
      (createDryRunResult cfg.currentEnvKey cfg.currentEnv dv, st) := by
  unfold rotateKeyWithReEncryption
  dsimp only
  rw [hval]
  dsimp only
  rw [hold]
  dsimp only
  rw [hdec]
  dsimp only
  rw [hdry]
  rw [if_pos rfl]

theorem updateRotationTracking_secretFile (st : EngineState)
    (keyName environment : Str) (oldHash newHash : Option Str) (reason : Str)
    (rotationDays : Int) (performedBy : Str) (success : Bool) (now : Time) :
    (updateRotationTracking st keyName environment oldHash newHash reason
        rotationDays performedBy success now).secretFile = st.secretFile := rfl

theorem updateRotationTracking_envFile (st : EngineState)
    (keyName environment : Str) (oldHash newHash : Option Str) (reason : Str)
    (rotationDays : Int) (performedBy : Str) (success : Bool) (now : Time) :
    (updateRotationTracking st keyName environment oldHash newHash reason
        rotationDays performedBy success now).envFile = st.envFile := rfl

theorem updateRotationTracking_rotations (st : EngineState)
    (keyName environment : Str) (oldHash newHash : Option Str) (reason : Str)
    (rotationDays : Int) (performedBy : Str) (success : Bool) (now : Time) :
    (updateRotationTracking st keyName environment oldHash newHash reason
        rotationDays performedBy success now).rotationFile.rotations.length =
      st.rotationFile.rotations.length + 1 := by
  unfold updateRotationTracking recordRotation
  simp

/-! ## Claim theorems: rotation error handling and dry run -/

/-- C2: when decrypting any variable with the old key fails, the rotation
returns a failure without storing a new key or touching the variable file:
the key store and variable store are unchanged, and the raised decryption
error is the fail-fast error of the first failing variable — the only
variable whose decryption was attempted and failed — and it names that
variable. -/
theorem claim_C2_decryptAtomicity (cfg : RotationEnv) (opts : RotationOptions)
    (st : EngineState) (now : Time) (seed : Nat) (oldKey : Str) (e : Str)
    (hval : validateRotationNecessary cfg.currentEnvKey opts.forceRotation
      st.metadataFile now = .ok ())
    (hold : getOldSecretKey st.secretFile cfg.currentEnvKey = .ok oldKey)
    (hdec : decryptAllEnvironmentVariables st.envFile oldKey = .error e) :
    (rotateKeyWithReEncryption cfg opts st now seed).1.success = false ∧
    (rotateKeyWithReEncryption cfg opts st now seed).2.secretFile = st.secretFile ∧
    (rotateKeyWithReEncryption cfg opts st now seed).2.envFile = st.envFile ∧
    ∃ pre k v post, st.envFile = pre ++ (k, v) :: post ∧
      decryptFails oldKey (k, v) ∧
      (∀ q ∈ pre, ¬ decryptFails oldKey q) ∧
      e = decryptFailMsg k ∧
      ∃ m1 m2, e = m1 ++ k ++ m2 := by
  have hshape := rotate_decrypt_error cfg opts st now seed oldKey e hval hold hdec
  refine ⟨by rw [hshape]; rfl,
    by rw [hshape]; exact updateRotationTracking_secretFile _ _ _ _ _ _ _ _ _ _,
    by rw [hshape]; exact updateRotationTracking_envFile _ _ _ _ _ _ _ _ _ _, ?_⟩
  obtain ⟨pre, k, v, post, hsplit, hfails, hpre, hmsg⟩ :=
    decryptAllGo_error st.envFile [] e hdec
  exact ⟨pre, k, v, post, hsplit, hfails, hpre, hmsg,
    "Failed to decrypt variable \"".data, "\". Cannot proceed with rotation.".data,
    by rw [hmsg]; rfl⟩

/-- C2 witness: a concrete three-variable file where the third variable has
a valid envelope shape but a wrong tag; decryption of it fails and the
rotation returns a failure leaving key and variable stores unchanged. -/
theorem claim_C2_decryptAtomicity_witness :
    validateRotationNecessary "SECRET_KEY_DEV".data true (⟨[], 0⟩ : KeyMetadataFile) 0 = .ok () ∧
    getOldSecretKey [("SECRET_KEY_DEV".data, "0123456789ABCDEF".data)] "SECRET_KEY_DEV".data =
      .ok "0123456789ABCDEF".data ∧
    decryptAllEnvironmentVariables
      [("V1".data, "plain".data),
       ("V2".data, "ENC2:v1:AAAB:AAAC:AAERAAES:ABJm".data),
       ("V3".data, "ENC2:v1:AAAA:AAAA:AAAA:AAAA".data)] "0123456789ABCDEF".data =
      .error (decryptFailMsg "V3".data) ∧
    (rotateKeyWithReEncryption ⟨"SECRET_KEY_DEV".data, "dev".data⟩
      ⟨"manual".data, 90, "u".data, true, false⟩
      ⟨[("SECRET_KEY_DEV".data, "0123456789ABCDEF".data)],
       [("V1".data, "plain".data),
        ("V2".data, "ENC2:v1:AAAB:AAAC:AAERAAES:ABJm".data),
        ("V3".data, "ENC2:v1:AAAA:AAAA:AAAA:AAAA".data)],
       ⟨[], 0⟩, ⟨[], 0⟩, ⟨[], 0, 0⟩⟩ 0 0).1.success = false ∧
    (rotateKeyWithReEncryption ⟨"SECRET_KEY_DEV".data, "dev".data⟩
      ⟨"manual".data, 90, "u".data, true, false⟩
      ⟨[("SECRET_KEY_DEV".data, "0123456789ABCDEF".data)],
       [("V1".data, "plain".data),
        ("V2".data, "ENC2:v1:AAAB:AAAC:AAERAAES:ABJm".data),
        ("V3".data, "ENC2:v1:AAAA:AAAA:AAAA:AAAA".data)],
       ⟨[], 0⟩, ⟨[], 0⟩, ⟨[], 0, 0⟩⟩ 0 0).2.secretFile =
      [("SECRET_KEY_DEV".data, "0123456789ABCDEF".data)] := by
  have h := claim_C2_decryptAtomicity ⟨"SECRET_KEY_DEV".data, "dev".data⟩
    ⟨"manual".data, 90, "u".data, true, false⟩
    ⟨[("SECRET_KEY_DEV".data, "0123456789ABCDEF".data)],
     [("V1".data, "plain".data),
      ("V2".data, "ENC2:v1:AAAB:AAAC:AAERAAES:ABJm".data),
      ("V3".data, "ENC2:v1:AAAA:AAAA:AAAA:AAAA".data)],
     ⟨[], 0⟩, ⟨[], 0⟩, ⟨[], 0, 0⟩⟩ 0 0 "0123456789ABCDEF".data
    (decryptFailMsg "V3".data) (by decide) (by decide) (by decide)
  exact ⟨by decide, by decide, by decide, h.1, h.2.1⟩

/-- C4 counterexample: with the current key missing from the key store, the
rotation does not throw before any state change — it returns the
structured failure result and records a failed rotation entry in the
rotation history (a state change), contradicting the claim's exception
clause. -/
theorem claim_C4_counterexample :
    (rotateKeyWithReEncryption ⟨"SECRET_KEY_DEV".data, "dev".data⟩
      ⟨"manual".data, 90, "u".data, true, false⟩
      ⟨[], [], ⟨[], 0⟩, ⟨[], 0⟩, ⟨[], 0, 0⟩⟩ 0 0).1 =
      rotationFailureResult "SECRET_KEY_DEV".data "dev".data ∧
    (rotateKeyWithReEncryption ⟨"SECRET_KEY_DEV".data, "dev".data⟩
      ⟨"manual".data, 90, "u".data, true, false⟩
      ⟨[], [], ⟨[], 0⟩, ⟨[], 0⟩, ⟨[], 0, 0⟩⟩ 0 0).2.rotationFile.rotations.length = 1 ∧
    (⟨[], [], ⟨[], 0⟩, ⟨[], 0⟩, ⟨[], 0, 0⟩⟩ : EngineState).rotationFile.rotations.length = 0 := by
  refine ⟨?_, ?_, ?_⟩ <;> decide

/-- C4 amended: every failing non-dry-run invocation — including the
missing-key precondition violation — returns the structured result
`{success := false, variablesProcessed := 0, variablesFailed := [],
no hashes}` instead of throwing, and records one failed rotation entry
before returning. -/
theorem claim_C4_amended (cfg : RotationEnv) (opts : RotationOptions)
    (st : EngineState) (now : Time) (seed : Nat)
    (hdry : opts.dryRun = false)
    (hfail : (rotateKeyWithReEncryption cfg opts st now seed).1.success = false) :
    (rotateKeyWithReEncryption cfg opts st now seed).1 =
      rotationFailureResult cfg.currentEnvKey cfg.currentEnv ∧
    (rotateKeyWithReEncryption cfg opts st now seed).2.rotationFile.rotations.length =
      st.rotationFile.rotations.length + 1 := by
  unfold rotateKeyWithReEncryption at hfail ⊢
  dsimp only at hfail ⊢
  cases hv : validateRotationNecessary cfg.currentEnvKey opts.forceRotation st.metadataFile now with
  | error e =>
    exact ⟨rfl, updateRotationTracking_rotations _ _ _ _ _ _ _ _ _ _⟩
  | ok u =>
    cases u
    rw [hv] at hfail
    dsimp only at hfail
    dsimp only
    cases hold : getOldSecretKey st.secretFile cfg.currentEnvKey with
    | error e =>
      exact ⟨rfl, updateRotationTracking_rotations _ _ _ _ _ _ _ _ _ _⟩
    | ok oldKey =>
      rw [hold] at hfail
      dsimp only at hfail
      dsimp only
      cases hdec : decryptAllEnvironmentVariables st.envFile oldKey with
      | error e =>
        exact ⟨rfl, updateRotationTracking_rotations _ _ _ _ _ _ _ _ _ _⟩
      | ok dv =>
        rw [hdec] at hfail
        dsimp only at hfail
        dsimp only
        rw [hdry] at hfail ⊢
        rw [if_neg (show ¬(false = true) by simp)] at hfail ⊢
        cases hre : reEncryptAllVariables ({ st with secretFile := storeNewSecretKey st.secretFile cfg.currentEnvKey (generateBase64SecretKey seed) }) dv (generateBase64SecretKey seed) seed with
        | error e =>
          refine ⟨rfl, ?_⟩
          rw [updateRotationTracking_rotations]
        | ok r =>
          rw [hre] at hfail
          simp at hfail

/-- C4 amended witness: the missing-key input of the counterexample run
through the amended theorem. -/
theorem claim_C4_amended_witness :
    (⟨"manual".data, 90, "u".data, true, false⟩ : RotationOptions).dryRun = false ∧
    (rotateKeyWithReEncryption ⟨"SECRET_KEY_DEV".data, "dev".data⟩
      ⟨"manual".data, 90, "u".data, true, false⟩
      ⟨[], [], ⟨[], 0⟩, ⟨[], 0⟩, ⟨[], 0, 0⟩⟩ 0 0).1.success = false ∧
    (rotateKeyWithReEncryption ⟨"SECRET_KEY_DEV".data, "dev".data⟩
      ⟨"manual".data, 90, "u".data, true, false⟩
      ⟨[], [], ⟨[], 0⟩, ⟨[], 0⟩, ⟨[], 0, 0⟩⟩ 0 0).1 =
      rotationFailureResult "SECRET_KEY_DEV".data "dev".data := by
  refine ⟨by decide, by decide, ?_⟩
  exact (claim_C4_amended ⟨"SECRET_KEY_DEV".data, "dev".data⟩
    ⟨"manual".data, 90, "u".data, true, false⟩
    ⟨[], [], ⟨[], 0⟩, ⟨[], 0⟩, ⟨[], 0, 0⟩⟩ 0 0 (by decide) (by decide)).1

/-- C7 counterexample: a dry run is not `success=true` for every state, and
back-to-back dry runs can differ.  With a tracked active key and
`rotationDays := 0`, the first non-forced dry run fails validation
(`success=false`, 0 variables), but its failure-tracking resets the key's
expiry, so the second identical dry run passes validation and reports 1
variable — the two `variablesProcessed` counts differ. -/
theorem claim_C7_counterexample :
    (rotateKeyWithReEncryption ⟨"SECRET_KEY_DEV".data, "dev".data⟩
      ⟨"scheduled".data, 0, "u".data, false, true⟩
      ⟨[("SECRET_KEY_DEV".data, "0123456789ABCDEF".data)],
       [("V2".data, "ENC2:v1:AAAB:AAAC:AAERAAES:ABJm".data)],
       ⟨[("SECRET_KEY_DEV".data,
         { keyName := "SECRET_KEY_DEV".data, environment := "dev".data, createdAt := 0,
           expiresAt := 8640000000, rotationDays := 90, lastRotatedAt := none,
           rotationCount := 0, status := .active, performedBy := "u".data })], 0⟩,
       ⟨[], 0⟩, ⟨[], 0, 0⟩⟩ 0 0).1.success = false ∧
    (rotateKeyWithReEncryption ⟨"SECRET_KEY_DEV".data, "dev".data⟩
      ⟨"scheduled".data, 0, "u".data, false, true⟩
      ⟨[("SECRET_KEY_DEV".data, "0123456789ABCDEF".data)],
       [("V2".data, "ENC2:v1:AAAB:AAAC:AAERAAES:ABJm".data)],
       ⟨[("SECRET_KEY_DEV".data,
         { keyName := "SECRET_KEY_DEV".data, environment := "dev".data, createdAt := 0,
           expiresAt := 8640000000, rotationDays := 90, lastRotatedAt := none,
           rotationCount := 0, status := .active, performedBy := "u".data })], 0⟩,
       ⟨[], 0⟩, ⟨[], 0, 0⟩⟩ 0 0).1.variablesProcessed = 0 ∧
    (rotateKeyWithReEncryption ⟨"SECRET_KEY_DEV".data, "dev".data⟩
      ⟨"scheduled".data, 0, "u".data, false, true⟩
      (rotateKeyWithReEncryption ⟨"SECRET_KEY_DEV".data, "dev".data⟩
        ⟨"scheduled".data, 0, "u".data, false, true⟩
        ⟨[("SECRET_KEY_DEV".data, "0123456789ABCDEF".data)],
         [("V2".data, "ENC2:v1:AAAB:AAAC:AAERAAES:ABJm".data)],
         ⟨[("SECRET_KEY_DEV".data,
           { keyName := "SECRET_KEY_DEV".data, environment := "dev".data, createdAt := 0,
             expiresAt := 8640000000, rotationDays := 90, lastRotatedAt := none,
             rotationCount := 0, status := .active, performedBy := "u".data })], 0⟩,
         ⟨[], 0⟩, ⟨[], 0, 0⟩⟩ 0 0).2 0 0).1.variablesProcessed = 1 := by
  refine ⟨?_, ?_, ?_⟩ <;> decide

/-- C7 amended: when validation passes and every encrypted variable
decrypts under the current key, a dry run returns `success=true` with
`variablesProcessed` equal to the number of currently-encrypted variables
and no key hashes, leaves the whole engine state (key store and variable
store included) unchanged, and an immediate second call returns the
identical result. -/
theorem claim_C7_amended (cfg : RotationEnv) (opts : RotationOptions)
    (st : EngineState) (now : Time) (seed : Nat) (oldKey : Str)
    (dv : List DecryptedVariable)
    (hdry : opts.dryRun = true)
    (hval : validateRotationNecessary cfg.currentEnvKey opts.forceRotation
      st.metadataFile now = .ok ())
    (hold : getOldSecretKey st.secretFile cfg.currentEnvKey = .ok oldKey)
    (hdec : decryptAllEnvironmentVariables st.envFile oldKey = .ok dv) :
    rotateKeyWithReEncryption cfg opts st now seed =
      (createDryRunResult cfg.currentEnvKey cfg.currentEnv dv, st) ∧
    (createDryRunResult cfg.currentEnvKey cfg.currentEnv dv).success = true ∧
    (createDryRunResult cfg.currentEnvKey cfg.currentEnv dv).variablesProcessed =
      (dv.filter (·.wasEncrypted)).length ∧
    (createDryRunResult cfg.currentEnvKey cfg.currentEnv dv).oldKeyHash = none ∧
    (createDryRunResult cfg.currentEnvKey cfg.currentEnv dv).newKeyHash = none ∧
    rotateKeyWithReEncryption cfg opts
      (rotateKeyWithReEncryption cfg opts st now seed).2 now seed =
      rotateKeyWithReEncryption cfg opts st now seed := by
  have hshape := rotate_dryRun_ok cfg opts st now seed oldKey dv hdry hval hold hdec
  refine ⟨hshape, rfl, rfl, rfl, rfl, ?_⟩
  rw [hshape]
  exact hshape

/-- C7 amended witness: a forced dry run over a one-envelope variable file,
repeated with identical results. -/
theorem claim_C7_amended_witness :
    decryptAllEnvironmentVariables
      [("V2".data, "ENC2:v1:AAAB:AAAC:AAERAAES:ABJm".data)] "0123456789ABCDEF".data =
      .ok [{ key := "V2".data, originalValue := "ENC2:v1:AAAB:AAAC:AAERAAES:ABJm".data,
             decryptedValue := "hi".data, wasEncrypted := true }] ∧
    rotateKeyWithReEncryption ⟨"SECRET_KEY_DEV".data, "dev".data⟩
      ⟨"manual".data, 90, "u".data, true, true⟩
      ⟨[("SECRET_KEY_DEV".data, "0123456789ABCDEF".data)],
       [("V2".data, "ENC2:v1:AAAB:AAAC:AAERAAES:ABJm".data)],
       ⟨[], 0⟩, ⟨[], 0⟩, ⟨[], 0, 0⟩⟩ 0 0 =
      (createDryRunResult "SECRET_KEY_DEV".data "dev".data
        [{ key := "V2".data, originalValue := "ENC2:v1:AAAB:AAAC:AAERAAES:ABJm".data,
           decryptedValue := "hi".data, wasEncrypted := true }],
       ⟨[("SECRET_KEY_DEV".data, "0123456789ABCDEF".data)],
        [("V2".data, "ENC2:v1:AAAB:AAAC:AAERAAES:ABJm".data)],
        ⟨[], 0⟩, ⟨[], 0⟩, ⟨[], 0, 0⟩⟩) := by
  refine ⟨by decide, ?_⟩
  exact (claim_C7_amended ⟨"SECRET_KEY_DEV".data, "dev".data⟩
    ⟨"manual".data, 90, "u".data, true, true⟩
    ⟨[("SECRET_KEY_DEV".data, "0123456789ABCDEF".data)],
     [("V2".data, "ENC2:v1:AAAB:AAAC:AAERAAES:ABJm".data)],
     ⟨[], 0⟩, ⟨[], 0⟩, ⟨[], 0, 0⟩⟩ 0 0 "0123456789ABCDEF".data
    [{ key := "V2".data, originalValue := "ENC2:v1:AAAB:AAAC:AAERAAES:ABJm".data,
       decryptedValue := "hi".data, wasEncrypted := true }]
    (by decide) (by decide) (by decide) (by decide)).1

end OhrmCrypto
